import Mathlib

/-!
The `max_without` validation rule of appvalidator.

A shallow embedding of `src/maxWithout.go` and of the parts of the Go standard
library it calls (`reflect`, `strings`, `strconv`, `unicode/utf8`, `time`),
followed by theorems about the three functions of the file:
`maxWithout`, `isPropertyNotEmpty` and `isLessOrEqual`.

Conventions of the embedding.

* A Go `string` is a sequence of bytes: `GoString := List Nat`, every element
  being a byte value.  `str` turns text into its UTF-8 bytes.
* A `reflect.Value` is a term of `Value`.  The zero `reflect.Value` is
  `Value.invalid`.
* A call that can panic at run time returns an `Option`; `none` is the panic.
* Machine integers are `Nat` / `Int`; where Go wraps around, the wrap is
  written with an explicit `% 2 ^ 64`.
* `time.ParseDuration`, `strconv.ParseFloat` and `time.Parse` are taken as
  parameters (`Lib`): the theorems hold for every behaviour of these parsers.
-/

namespace Appvalidator

/-! ## Go strings -/

/-- A Go string: an immutable sequence of bytes. -/
abbrev GoString := List Nat

/-- Go `int64`, as a mathematical integer. -/
abbrev int64 := Int

/-- Go `uint64`, as a natural number. -/
abbrev uint64 := Nat

/-- Go `utf8.AppendRune` applied to an empty buffer: the UTF-8 bytes of rune `r`
(an invalid rune is encoded as `RuneError`, U+FFFD). -/
def EncodeRune (r : Nat) : GoString :=
  if r ≤ 0x7F then [r]
  else if r ≤ 0x7FF then [0xC0 + r / 64, 0x80 + r % 64]
  else if r > 0x10FFFF ∨ (0xD800 ≤ r ∧ r ≤ 0xDFFF) then [0xEF, 0xBF, 0xBD]
  else if r ≤ 0xFFFF then [0xE0 + r / 4096, 0x80 + r / 64 % 64, 0x80 + r % 64]
  else [0xF0 + r / 262144, 0x80 + r / 4096 % 64, 0x80 + r / 64 % 64, 0x80 + r % 64]

/-- The Go string holding the UTF-8 encoding of a sequence of code points. -/
def encodeRunes : List Char → GoString
  | [] => []
  | c :: cs => EncodeRune c.toNat ++ encodeRunes cs

/-- The Go string literal with the given text. -/
def str (s : String) : GoString := encodeRunes s.toList

/-- Go `strings.Split(s, sep)` for a separator `sep` of exactly one byte (both
call sites pass a one-byte constant).  The result always has at least one
element. -/
def Split : GoString → Nat → List GoString
  | [], _ => [[]]
  | c :: cs, sep =>
    if c = sep then [] :: Split cs sep
    else
      match Split cs sep with
      | [] => [[c]]
      | p :: ps => (c :: p) :: ps

/-! ## `unicode/utf8` -/

/-- The constant `utf8.RuneSelf`. -/
def RuneSelf : Nat := 0x80
/-- Lowest continuation byte. -/
def locb : Nat := 0x80
/-- Highest continuation byte. -/
def hicb : Nat := 0xBF
/-- Marker of an invalid first byte in the table `first`. -/
def xx : Nat := 0xF1
/-- Marker of an ASCII byte in the table `first`. -/
def as : Nat := 0xF0
/-- Entry of `first`: accept range 0, size 2. -/
def s1 : Nat := 0x02
/-- Entry of `first`: accept range 1, size 3. -/
def s2 : Nat := 0x13
/-- Entry of `first`: accept range 0, size 3. -/
def s3 : Nat := 0x03
/-- Entry of `first`: accept range 2, size 3. -/
def s4 : Nat := 0x23
/-- Entry of `first`: accept range 3, size 4. -/
def s5 : Nat := 0x34
/-- Entry of `first`: accept range 0, size 4. -/
def s6 : Nat := 0x04
/-- Entry of `first`: accept range 4, size 4. -/
def s7 : Nat := 0x44

/-- The table `utf8.first`: information about the first byte of an encoding. -/
def first (c : Nat) : Nat :=
  if c < 0x80 then as
  else if c < 0xC2 then xx
  else if c < 0xE0 then s1
  else if c = 0xE0 then s2
  else if c < 0xED then s3
  else if c = 0xED then s4
  else if c < 0xF0 then s3
  else if c = 0xF0 then s5
  else if c < 0xF4 then s6
  else if c = 0xF4 then s7
  else xx

/-- The table `utf8.acceptRanges`: the range `(lo, hi)` of valid second bytes. -/
def acceptRanges (i : Nat) : Nat × Nat :=
  match i with
  | 0 => (locb, hicb)
  | 1 => (0xA0, hicb)
  | 2 => (locb, 0x9F)
  | 3 => (0x90, hicb)
  | 4 => (locb, 0x8F)
  | _ => (0, 0)

/-- One iteration of the loop of `utf8.RuneCountInString` at a position holding
byte `c` followed by the bytes `rest`: the number of bytes the position
advances.  (`x % 8` is `x & 7`, `x / 16` is `x >> 4`.) -/
def runeWidth (c : Nat) (rest : GoString) : Nat :=
  if c < RuneSelf then 1
  else
    let x := first c
    if x = xx then 1
    else
      let size := x % 8
      if 1 + rest.length < size then 1
      else
        let accept := acceptRanges (x / 16)
        if rest.getD 0 0 < accept.1 ∨ accept.2 < rest.getD 0 0 then 1
        else if size = 2 then 2
        else if rest.getD 1 0 < locb ∨ hicb < rest.getD 1 0 then 1
        else if size = 3 then 3
        else if rest.getD 2 0 < locb ∨ hicb < rest.getD 2 0 then 1
        else size

/-- The loop of `utf8.RuneCountInString`; `skip` is the number of bytes still
to step over before the next rune starts. -/
def runeCountFrom : Nat → GoString → Nat
  | _, [] => 0
  | skip + 1, _ :: rest => runeCountFrom skip rest
  | 0, c :: rest => 1 + runeCountFrom (runeWidth c rest - 1) rest

/-- Go `utf8.RuneCountInString`. -/
def RuneCountInString (s : GoString) : Nat := runeCountFrom 0 s

/-! ## `strconv` -/

/-- The two errors of `strconv.NumError`: `ErrSyntax` and `ErrRange`. -/
inductive NumError where
  | malformed
  | outOfRange
  deriving DecidableEq, Repr

/-- The constant `maxUint64`. -/
def maxUint64 : Nat := 2 ^ 64 - 1

/-- The function `strconv.lower`: `c | ('x' - 'X')`. -/
def lower (c : Nat) : Nat := c ||| 0x20

/-- The digit switch inside the loop of `ParseUint` (the underscore case needs
`base == 0` and is dead for base 10): the digit value of byte `c`, if any. -/
def digitValue (c : Nat) : Option Nat :=
  if 48 ≤ c ∧ c ≤ 57 then some (c - 48)
  else if 97 ≤ lower c ∧ lower c ≤ 122 then some (lower c - 97 + 10)
  else none

/-- The loop of `strconv.ParseUint(s, 10, 64)` over the remaining bytes, with
accumulator `n`. -/
def parseUintLoop : GoString → Nat → Nat × Option NumError
  | [], n => (n, none)
  | c :: cs, n =>
    match digitValue c with
    | none => (0, some NumError.malformed)
    | some d =>
      if d ≥ 10 then (0, some NumError.malformed)
      else if n ≥ maxUint64 / 10 + 1 then (maxUint64, some NumError.outOfRange)
      else
        let n10 := n * 10 % 2 ^ 64
        let n1 := (n10 + d) % 2 ^ 64
        if n1 < n10 ∨ n1 > maxUint64 then (maxUint64, some NumError.outOfRange)
        else parseUintLoop cs n1

/-- Go `strconv.ParseUint(s, 10, 64)`: the value and the error (`none` is a nil
error). -/
def ParseUint (s : GoString) : Nat × Option NumError :=
  if s = [] then (0, some NumError.malformed) else parseUintLoop s 0

/-- Go `strconv.ParseInt(s, 10, 64)`: the value and the error. -/
def ParseInt (s : GoString) : Int × Option NumError :=
  match s with
  | [] => (0, some NumError.malformed)
  | c :: rest =>
    let neg := decide (c = 45)
    let digits := if c = 43 then rest else if c = 45 then rest else s
    match ParseUint digits with
    | (_, some NumError.malformed) => (0, some NumError.malformed)
    | (un, _) =>
      let cutoff := 2 ^ 63
      if ¬ neg ∧ un ≥ cutoff then (cutoff - 1, some NumError.outOfRange)
      else if neg ∧ un > cutoff then (-cutoff, some NumError.outOfRange)
      else if neg then (-(un : Int), none)
      else ((un : Int), none)

/-! ## `float64` comparison and `time.Time` -/

/-- Whether the IEEE-754 binary64 bit pattern `b` is a NaN. -/
def f64IsNaN (b : Nat) : Bool := decide (b / 2 ^ 52 % 2 ^ 11 = 2047 ∧ b % 2 ^ 52 ≠ 0)

/-- Sign-and-magnitude key of a binary64 bit pattern: numeric order of non-NaN
floats is the order of their keys (both zeros have key 0). -/
def f64Key (b : Nat) : Int :=
  if b / 2 ^ 63 % 2 = 1 then -((b % 2 ^ 63 : Nat) : Int) else ((b % 2 ^ 63 : Nat) : Int)

/-- Go `a <= b` on `float64` operands given by their bit patterns. -/
def f64Le (a b : Nat) : Bool := !f64IsNaN a && !f64IsNaN b && decide (f64Key a ≤ f64Key b)

/-- Go `a == b` on `float64` operands given by their bit patterns. -/
def f64Eq (a b : Nat) : Bool := !f64IsNaN a && !f64IsNaN b && decide (f64Key a = f64Key b)

/-- The fields `wall` and `ext` of a Go `time.Time`. -/
structure Time where
  wall : Nat
  ext : Int
  deriving DecidableEq, Repr

/-- The constant `time.hasMonotonic`. -/
def hasMonotonic : Nat := 2 ^ 63
/-- The constant `time.nsecMask`. -/
def nsecMask : Nat := 2 ^ 30 - 1
/-- The constant `time.nsecShift`. -/
def nsecShift : Nat := 30
/-- The constant `time.wallToInternal`. -/
def wallToInternal : Int := (1884 * 365 + 1884 / 4 - 1884 / 100 + 1884 / 400) * 86400

/-- Go `(*Time).sec`: seconds since January 1, year 1. -/
def Time.sec (t : Time) : Int :=
  if t.wall &&& hasMonotonic ≠ 0 then
    wallToInternal + (((t.wall * 2 % 2 ^ 64) >>> (nsecShift + 1) : Nat) : Int)
  else t.ext

/-- Go `(*Time).nsec`: the nanoseconds within the second. -/
def Time.nsec (t : Time) : Int := ((t.wall &&& nsecMask : Nat) : Int)

/-- Go `Time.Before`. -/
def Time.Before (t u : Time) : Bool :=
  if t.wall &&& u.wall &&& hasMonotonic ≠ 0 then decide (t.ext < u.ext)
  else decide (t.sec < u.sec) || decide (t.sec = u.sec) && decide (t.nsec < u.nsec)

/-- Go `Time.Equal`. -/
def Time.Equal (t u : Time) : Bool :=
  if t.wall &&& u.wall &&& hasMonotonic ≠ 0 then decide (t.ext = u.ext)
  else decide (t.sec = u.sec) && decide (t.nsec = u.nsec)

/-- What `time.Parse` computes before it builds its result with `time.Date`:
seconds since January 1, year 1 and nanoseconds within the second (normalised
by `Date` into `[0, 999999999]`). -/
structure Instant where
  sec : Int
  nsec : Nat
  nsec_lt : nsec < 1000000000
  deriving DecidableEq

/-- Go `unixTime`, through which `time.Date` builds its result: the wall-clock
`Time` of an instant, without monotonic clock reading. -/
def Instant.toTime (i : Instant) : Time := ⟨i.nsec, i.sec⟩

/-- The library parsers that are taken as parameters: `time.ParseDuration`,
`strconv.ParseFloat(s, 64)` (result as a binary64 bit pattern) and
`time.Parse(layout, s)`.  In each, `none` is a non-nil error. -/
structure Lib where
  ParseDuration : GoString → Option Int
  ParseFloat : GoString → Option Nat
  Parse : GoString → GoString → Option Instant

/-! ## `reflect` -/

/-- Go `reflect.Kind`. -/
inductive Kind where
  | Invalid | Bool | Int | Int8 | Int16 | Int32 | Int64
  | Uint | Uint8 | Uint16 | Uint32 | Uint64 | Uintptr
  | Float32 | Float64 | Complex64 | Complex128
  | Array | Chan | Func | Interface | Map | Pointer | Slice | String | Struct
  | UnsafePointer
  deriving DecidableEq, Repr

/-- Types of signed integer kind, as far as the code tells them apart: the five
kinds, and `time.Duration` (kind `Int64`), the one type it compares by
identity.  Any other named type behaves as its kind. -/
inductive IntType where
  | int | int8 | int16 | int32 | int64 | duration
  deriving DecidableEq, Repr

/-- Types of unsigned integer kind. -/
inductive UintType where
  | uint | uint8 | uint16 | uint32 | uint64 | uintptr
  deriving DecidableEq, Repr

/-- Types of floating-point kind. -/
inductive FloatType where
  | float32 | float64
  deriving DecidableEq, Repr

/-- A Go `reflect.Value`, with the data the three functions can observe.
* `invalid` is the zero `reflect.Value`.
* `int t i`: `i` is what `Value.Int()` returns; `uint t u`: what `Value.Uint()`
  returns; `float t bits`: the bit pattern of what `Value.Float()` returns.
* `chan c`: `none` is a nil channel, `some n` a channel with `n` queued elements.
* `iface`, `ptr`: `none` is nil, `some v` the dynamic value or the pointee.
* `map`, `slice`: `none` is nil.
* `struct fields`: a struct of a type other than `time.Time` that has no
  embedded field, with the named fields in declaration order.
* `embedStruct fields promoted`: a struct of a type with embedded fields.
  `fields` are its own fields in declaration order (an embedded field under the
  name of its type).  `promoted` is what the type-level search of `reflect`
  through the embedded structs resolves for the names that are not among
  `fields`: each promoted name with the value `FieldByIndex` reaches for it, or
  with `none` when the way to it passes a nil embedded pointer, on which
  `FieldByIndex` panics.
* `time t loc`: a `time.Time`, with `loc` the pointee of its field `loc`. -/
inductive Value where
  | invalid
  | bool (b : Bool)
  | int (t : IntType) (i : Int)
  | uint (t : UintType) (u : Nat)
  | float (t : FloatType) (bits : Nat)
  | complex (wide : Bool) (re im : Nat)
  | array (elems : List Value)
  | chan (c : Option Nat)
  | func (isNil : Bool)
  | iface (elem : Option Value)
  | map (entries : Option (List (Value × Value)))
  | ptr (elem : Option Value)
  | slice (elems : Option (List Value))
  | string (s : GoString)
  | struct (fields : List (GoString × Value))
  | time (t : Time) (loc : Option Value)
  | unsafePointer (isNil : Bool)
  | embedStruct (fields : List (GoString × Value)) (promoted : List (GoString × Option Value))

namespace Value

/-- Go `Value.Kind`. -/
def Kind : Value → Appvalidator.Kind
  | invalid => .Invalid
  | bool _ => .Bool
  | int .int _ => .Int
  | int .int8 _ => .Int8
  | int .int16 _ => .Int16
  | int .int32 _ => .Int32
  | int .int64 _ => .Int64
  | int .duration _ => .Int64
  | uint .uint _ => .Uint
  | uint .uint8 _ => .Uint8
  | uint .uint16 _ => .Uint16
  | uint .uint32 _ => .Uint32
  | uint .uint64 _ => .Uint64
  | uint .uintptr _ => .Uintptr
  | float .float32 _ => .Float32
  | float .float64 _ => .Float64
  | complex false _ _ => .Complex64
  | complex true _ _ => .Complex128
  | array _ => .Array
  | chan _ => .Chan
  | func _ => .Func
  | iface _ => .Interface
  | map _ => .Map
  | ptr _ => .Pointer
  | slice _ => .Slice
  | string _ => .String
  | struct _ => .Struct
  | time _ _ => .Struct
  | unsafePointer _ => .UnsafePointer
  | embedStruct _ _ => .Struct

/-- Whether `Value.Type()` is `reflect.TypeOf(time.Duration(0))`. -/
def isDuration : Value → Bool
  | int .duration _ => true
  | _ => false

/-- The `time.Time` held by a value whose `Value.Type()` is the type
`time.Time`, and `none` for a value of any other type. -/
def asTime : Value → Option Time
  | time t _ => some t
  | _ => none

/-- Go `Value.Uint` (called on unsigned kinds only). -/
def Uint : Value → uint64
  | uint _ u => u
  | _ => 0

/-- Go `Value.Int` (called on signed kinds only). -/
def Int : Value → int64
  | int _ i => i
  | _ => 0

/-- Go `Value.Float`, as a binary64 bit pattern (called on float kinds only). -/
def Float : Value → Nat
  | float _ bits => bits
  | _ => 0

/-- Go `Value.String` (called on kind `String` only). -/
def String : Value → GoString
  | string s => s
  | _ => []

/-- Go `Value.IsNil`; `none` is the panic on a kind that cannot be nil. -/
def IsNil : Value → Option Bool
  | chan c => some c.isNone
  | func isNil => some isNil
  | iface elem => some elem.isNone
  | map entries => some entries.isNone
  | ptr elem => some elem.isNone
  | slice elems => some elems.isNone
  | unsafePointer isNil => some isNil
  | _ => none

/-- Go `Value.Len`; `none` is the panic on a kind without length (the length of
a pointer to an array is not modelled: the code never asks for it). -/
def Len : Value → Option Nat
  | array elems => some elems.length
  | chan c => some (c.getD 0)
  | map entries => some ((entries.getD []).length)
  | slice elems => some ((elems.getD []).length)
  | string s => some s.length
  | _ => none

/-- Go `Value.Elem`; `none` is the panic on a kind other than `Interface` and
`Pointer`.  The element of a nil pointer or interface is the zero Value. -/
def Elem : Value → Option Value
  | iface elem => some (elem.getD invalid)
  | ptr elem => some (elem.getD invalid)
  | _ => none

/-- The fields of a struct value itself, by name, and `none` for a value whose
kind is not `Struct`. -/
def fields : Value → Option (List (GoString × Value))
  | struct fs => some fs
  | embedStruct fs _ => some fs
  | time t loc =>
    some [(str "wall", uint .uint64 t.wall), (str "ext", int .int64 t.ext), (str "loc", ptr loc)]
  | _ => none

/-- The names a struct value gets from its embedded fields, each with what
`FieldByIndex` gives for it (`none` is its panic on a nil embedded pointer). -/
def promoted : Value → List (GoString × Option Value)
  | embedStruct _ ps => ps
  | _ => []

/-- Lookup of a field by its exact name, first declaration first. -/
def lookupField (name : GoString) : List (GoString × Value) → Option Value
  | [] => none
  | (n, v) :: fs => if n = name then some v else lookupField name fs

/-- Lookup of a promoted field by its exact name. -/
def lookupPromoted (name : GoString) : List (GoString × Option Value) → Option (Option Value)
  | [] => none
  | (n, r) :: ps => if n = name then some r else lookupPromoted name ps

/-- Go `Value.FieldByName`: `none` is a panic (the kind is not `Struct`, or the
field is promoted through a nil embedded pointer); a field of the struct itself
is found first, then a promoted field; the zero Value is returned when no field
has the name. -/
def FieldByName (v : Value) (name : GoString) : Option Value :=
  match v.fields with
  | none => none
  | some fs =>
    match lookupField name fs with
    | some f => some f
    | none =>
      match lookupPromoted name v.promoted with
      | none => some invalid
      | some none => none
      | some (some f) => some f

/-- The blank field name `_`. -/
def blankName : GoString := [95]

mutual
/-- Whether a valid value is the zero value of its type, as `Value.IsZero`
decides it kind by kind (Go 1.22 and later: a float or complex is compared
with 0 by `==`, so a negative zero is zero; the fields named `_` of a struct
are not looked at). -/
def zero : Value → Bool
  | invalid => false
  | bool b => !b
  | int _ i => decide (i = 0)
  | uint _ u => decide (u = 0)
  | float _ bits => f64Eq bits 0
  | complex _ re im => f64Eq re 0 && f64Eq im 0
  | array elems => zeroAll elems
  | chan c => c.isNone
  | func isNil => isNil
  | iface elem => elem.isNone
  | map entries => entries.isNone
  | ptr elem => elem.isNone
  | slice elems => elems.isNone
  | string s => decide (s.length = 0)
  | struct fs => zeroFields fs
  | time t loc => decide (t.wall = 0) && decide (t.ext = 0) && loc.isNone
  | unsafePointer isNil => isNil
  | embedStruct fs _ => zeroFields fs
/-- Every element of an array is zero. -/
def zeroAll : List Value → Bool
  | [] => true
  | v :: vs => zero v && zeroAll vs
/-- Every field of a struct, other than those named `_`, is zero. -/
def zeroFields : List (GoString × Value) → Bool
  | [] => true
  | (n, v) :: fs => (decide (n = blankName) || zero v) && zeroFields fs
end

/-- Go `Value.IsZero`; `none` is the panic on the zero Value. -/
def IsZero (v : Value) : Option Bool :=
  match v with
  | invalid => none
  | _ => some v.zero

end Value

/-! ## The source: `maxWithout.go` -/

/-- The layout constant passed to `time.Parse`. -/
def timeLayout : GoString := str "2006-01-02T15:04:05-07:00"

/-- The function `isLessOrEqual` of `maxWithout.go`.  Every accessor it calls
(`Uint`, `Int`, `String`, `Len`, `Float`, `Interface`) is called under the kind
that admits it, so the function returns on every input; values are those the
validator hands over, read from exported fields, on which `Interface` does
not panic. -/
def isLessOrEqual (lib : Lib) (value : Value) (maxValueString : GoString) : Bool :=
  match value.Kind with
  | .Uint | .Uint8 | .Uint16 | .Uint32 | .Uint64 | .Uintptr =>
    match ParseUint maxValueString with
    | (_, some _) => false
    | (maxValue, none) => decide (value.Uint ≤ maxValue)
  | .Int | .Int8 | .Int16 | .Int32 | .Int64 =>
    if value.isDuration then
      match lib.ParseDuration maxValueString with
      | none =>
        match ParseInt maxValueString with
        | (_, some _) => false
        | (maxValue, none) => decide (value.Int ≤ maxValue)
      | some d => decide (value.Int ≤ d)
    else
      match ParseInt maxValueString with
      | (_, some _) => false
      | (maxValue, none) => decide (value.Int ≤ maxValue)
  | .String =>
    match ParseInt maxValueString with
    | (_, some _) => false
    | (maxValue, none) => decide ((RuneCountInString value.String : Int) ≤ maxValue)
  | .Slice | .Map | .Array =>
    match ParseInt maxValueString with
    | (_, some _) => false
    | (maxValue, none) => decide ((((value.Len).getD 0 : Nat) : Int) ≤ maxValue)
  | .Float32 | .Float64 =>
    match lib.ParseFloat maxValueString with
    | none => false
    | some maxValue => f64Le value.Float maxValue
  | .Struct =>
    match value.asTime with
    | some t =>
      match lib.Parse timeLayout maxValueString with
      | none => false
      | some maxValue => t.Before maxValue.toTime || t.Equal maxValue.toTime
    | none => false
  | _ => false

/-- The function `isPropertyNotEmpty` of `maxWithout.go`; `none` is a run-time
panic raised by `reflect`. -/
def isPropertyNotEmpty : Value → List GoString → Option Bool
  | val0, name :: rest => do
    let val ← if val0.Kind = Kind.Pointer then val0.Elem else some val0
    let val ← val.FieldByName name
    if (← val.IsZero) then some false
    else isPropertyNotEmpty val rest
  | val0, [] => do
    let val ← if val0.Kind = Kind.Pointer then val0.Elem else some val0
    match val.Kind with
    | .Slice | .Map => some (!(← val.IsNil) && decide ((← val.Len) > 0))
    | .Pointer | .Interface | .Chan | .Func => some (!(← val.IsNil))
    | _ => some (!(← val.IsZero))

/-- The loop of `maxWithout` over the dependency paths: `some true` when a
dependency is present (the early `return true`), `some false` when the loop
runs to its end, `none` when a lookup panics. -/
def anyDependencyNotEmpty (parent : Value) : List GoString → Option Bool
  | [] => some false
  | fieldPath :: rest => do
    if (← isPropertyNotEmpty parent (Split fieldPath 46)) then some true
    else anyDependencyNotEmpty parent rest

/-- The validation function `maxWithout` of `maxWithout.go`, as a function of
what it reads from the field level: `fl.Field()`, `fl.Parent()` and
`fl.Param()`.  `none` is a run-time panic. -/
def maxWithout (lib : Lib) (field parent : Value) (param : GoString) : Option Bool := do
  let params := Split param 32
  if params.length < 1 then none
  else
    let dependencyFieldList := params.take (params.length - 1)
    if (← anyDependencyNotEmpty parent dependencyFieldList) then some true
    else
      let maxValueString ← params[params.length - 1]?
      some (isLessOrEqual lib field maxValueString)

/-! ## Reading of the spec's words -/

/-- Whether byte `c` is an ASCII decimal digit. -/
def isDigit (c : Nat) : Bool := decide (48 ≤ c ∧ c ≤ 57)

/-- One step of reading a decimal numeral from the left. -/
def decimalStep (a c : Nat) : Nat := 10 * a + (c - 48)

/-- The number written by a sequence of decimal digits. -/
def decimalValue (ds : GoString) : Nat := ds.foldl decimalStep 0

/-- The spec's "parse literal as unsigned 64-bit": a non-empty sequence of
decimal digits whose value is at most `2 ^ 64 - 1`. -/
def decimalUint64 (s : GoString) : Option Nat :=
  if s ≠ [] ∧ s.all isDigit = true ∧ decimalValue s ≤ 2 ^ 64 - 1 then some (decimalValue s)
  else none

/-- The sign and the digits of a signed decimal literal. -/
def signAndDigits : GoString → Bool × GoString
  | 43 :: ds => (false, ds)
  | 45 :: ds => (true, ds)
  | s => (false, s)

/-- The spec's "parse literal as signed 64-bit": an optional sign, then a
non-empty sequence of decimal digits, the value lying in
`[-2 ^ 63, 2 ^ 63 - 1]`. -/
def decimalInt64 (s : GoString) : Option Int :=
  let sd := signAndDigits s
  let m : Int := if sd.1 then -(decimalValue sd.2 : Int) else (decimalValue sd.2 : Int)
  if sd.2 ≠ [] ∧ sd.2.all isDigit = true ∧ -(2 ^ 63) ≤ m ∧ m ≤ 2 ^ 63 - 1 then some m
  else none

/-- The spec's "the literal cannot be parsed for the value's kind": `true` when
`value` has a supported kind and the parser the code assigns to that kind
returns an error on the literal (for a duration: both the duration parser and
the integer fallback). -/
def literalRejected (lib : Lib) (value : Value) (s : GoString) : Bool :=
  match value with
  | .uint _ _ => (ParseUint s).2.isSome
  | .int .duration _ => (lib.ParseDuration s).isNone && (ParseInt s).2.isSome
  | .int _ _ => (ParseInt s).2.isSome
  | .string _ => (ParseInt s).2.isSome
  | .slice _ => (ParseInt s).2.isSome
  | .map _ => (ParseInt s).2.isSome
  | .array _ => (ParseInt s).2.isSome
  | .float _ _ => (lib.ParseFloat s).isNone
  | .time _ _ => (lib.Parse timeLayout s).isNone
  | _ => false

/-- The kinds the spec's table lists with a parse rule: unsigned and signed
integers, strings, sequences, mappings, fixed arrays, floating point, and the
calendar timestamp. -/
def supportedKind (value : Value) : Bool :=
  match value with
  | .uint _ _ => true
  | .int _ _ => true
  | .string _ => true
  | .slice _ => true
  | .map _ => true
  | .array _ => true
  | .float _ _ => true
  | .time _ _ => true
  | _ => false

/-- A finite extract of the library parsers, for evaluating the functions on
concrete inputs: each listed literal has the value the Go parser gives it
(`"1h"` is 3600000000000 ns; `"1.5"` is the binary64 `0x3FF8000000000000`;
`2024-01-02T03:04:05+00:00` is 63839761445 s after January 1, year 1). -/
def sampleLib : Lib where
  ParseDuration s :=
    if s = str "1h" then some 3600000000000 else if s = str "0" then some 0 else none
  ParseFloat s := if s = str "1.5" then some 0x3FF8000000000000 else none
  Parse layout s :=
    if layout = timeLayout ∧ s = str "2024-01-02T03:04:05+00:00" then
      some ⟨63839761445, 0, by decide⟩
    else if layout = timeLayout ∧ s = str "2024-01-02T02:04:05+00:00" then
      some ⟨63839757845, 0, by decide⟩
    else none

/-- The parent struct of the end-to-end test: `Limit` points to 20, `Filters`
holds `StringF` and a nested struct with the slice `SliceF`. -/
def testData (stringF : GoString) (sliceF : Option (List Value)) : Value :=
  .struct [(str "Limit", .ptr (some (.uint .uint64 20))),
    (str "Filters", .struct [(str "StringF", .string stringF),
      (str "NestedFilters", .struct [(str "SliceF", .slice sliceF)])])]

/-- The dependency path tokens of a rule parameter: every space-separated token
other than the last. -/
def dependencyTokens (param : GoString) : List GoString := (Split param 32).dropLast

/-- The threshold literal of a rule parameter: the last space-separated token. -/
def thresholdToken (param : GoString) : GoString := (Split param 32).getLastD []

/-- The spec's "element count" of a sequence, a mapping or a fixed array; a null
sequence or mapping has none. -/
def elementCount : Value → Nat
  | .array elems => elems.length
  | .slice (some elems) => elems.length
  | .map (some entries) => entries.length
  | _ => 0

/-- The value on which the resolver looks up a field or classifies: the pointee
of a pointer (the zero Value for a nil pointer), any other value as it is. -/
def unwrapped : Value → Value
  | .ptr elem => elem.getD .invalid
  | v => v

/-- The spec's "the field named by the segment on the current structure": the
field with that exact name of the struct `v`, or of the struct `v` points to,
be it a field of the struct itself or one promoted from an embedded struct;
`none` when there is no such field to reach. -/
def fieldOf (v : Value) (name : GoString) : Option Value :=
  match (unwrapped v).fields with
  | none => none
  | some fs =>
    match Value.lookupField name fs with
    | some f => some f
    | none =>
      match Value.lookupPromoted name (unwrapped v).promoted with
      | some (some f) => some f
      | _ => none

/-- The spec's "nested path of non-zero fields": the value reached from `root`
by the segments of `path`, each naming an existing field whose value is not
the zero value of its type; `none` when a segment names no field or a zero
field. -/
def descend : Value → List GoString → Option Value
  | v, [] => some v
  | v, name :: rest =>
    match fieldOf v name with
    | none => none
    | some f => if f.IsZero = some false then descend f rest else none

/-- The spec's classification of a target value by kind: a sequence or mapping
is present when non-null with length > 0; a pointer, interface, channel or
function when non-null; a value of any other kind when it is not the zero
value. -/
def presentByKind : Value → Bool
  | .slice elems => elems.isSome && decide (0 < (elems.getD []).length)
  | .map entries => entries.isSome && decide (0 < (entries.getD []).length)
  | .ptr elem => elem.isSome
  | .iface elem => elem.isSome
  | .chan c => c.isSome
  | .func isNil => !isNil
  | v => !v.zero

/-- The spec's "well-formed decimal integer": an optional sign followed by a
non-empty sequence of decimal digits, with the integer it denotes (of any
size). -/
def decimalInteger (s : GoString) : Option Int :=
  let sd := signAndDigits s
  if sd.2 ≠ [] ∧ sd.2.all isDigit = true then
    some (if sd.1 then -(decimalValue sd.2 : Int) else (decimalValue sd.2 : Int))
  else none

/-- The Go language's "zero value" of a type, read off the language
specification: false for booleans, 0 for numeric types (a floating-point zero
of either sign: all bits below the sign bit are 0), the empty string, nil for
pointers, functions, interfaces, slices, channels and maps; an array is zero
when each element is, a struct when each field not named `_` is; the zero
`time.Time` has `wall = 0`, `ext = 0` and a nil `loc`. -/
inductive ZeroValue : Value → Prop
  | bool : ZeroValue (.bool false)
  | int (t : IntType) : ZeroValue (.int t 0)
  | uint (t : UintType) : ZeroValue (.uint t 0)
  | float (t : FloatType) (bits : Nat) (h : bits % 2 ^ 63 = 0) : ZeroValue (.float t bits)
  | complex (wide : Bool) (re im : Nat) (hre : re % 2 ^ 63 = 0) (him : im % 2 ^ 63 = 0) :
    ZeroValue (.complex wide re im)
  | array (elems : List Value) (h : ∀ e ∈ elems, ZeroValue e) : ZeroValue (.array elems)
  | chan : ZeroValue (.chan none)
  | func : ZeroValue (.func true)
  | iface : ZeroValue (.iface none)
  | map : ZeroValue (.map none)
  | ptr : ZeroValue (.ptr none)
  | slice : ZeroValue (.slice none)
  | string : ZeroValue (.string [])
  | struct (fs : List (GoString × Value)) (h : ∀ p ∈ fs, p.1 ≠ str "_" → ZeroValue p.2) :
    ZeroValue (.struct fs)
  | time : ZeroValue (.time ⟨0, 0⟩ none)
  | unsafePointer : ZeroValue (.unsafePointer true)
  | embedStruct (fs : List (GoString × Value)) (ps : List (GoString × Option Value))
    (h : ∀ p ∈ fs, p.1 ≠ str "_" → ZeroValue p.2) : ZeroValue (.embedStruct fs ps)

/-- The spec's presence rule for a target value (4.1, step 3), in the spec's
words: a sequence or mapping is present iff non-null with length > 0; a
pointer, interface, channel or function iff non-null; a value of any other
kind iff it is not the zero value. -/
def Present : Value → Prop
  | .slice elems => elems ≠ none ∧ 0 < (elems.getD []).length
  | .map entries => entries ≠ none ∧ 0 < (entries.getD []).length
  | .ptr elem => elem ≠ none
  | .iface elem => elem ≠ none
  | .chan c => c ≠ none
  | .func isNil => isNil = false
  | v => ¬ ZeroValue v

/-- The spec's "the segment names no field of the root": the root is a struct
and no field of it, its own or promoted from an embedded struct, has that
exact name. -/
def namesNoField (root : Value) (name : GoString) : Bool :=
  match root.fields with
  | none => false
  | some fs =>
    (Value.lookupField name fs).isNone && (Value.lookupPromoted name root.promoted).isNone

/-! ## Lemmas on the library functions -/

theorem le_foldl_decimalStep (cs : GoString) (n : Nat) : n ≤ cs.foldl decimalStep n := by
  induction cs generalizing n with
  | nil => simp
  | cons c cs ih =>
    have h := ih (decimalStep n c)
    simp only [List.foldl_cons]
    unfold decimalStep at h ⊢
    omega

theorem digitValue_of_digit (c : Nat) (h : isDigit c = true) : digitValue c = some (c - 48) := by
  simp only [isDigit, decide_eq_true_eq] at h
  simp [digitValue, h]

theorem digitValue_of_not_digit (c : Nat) (h : isDigit c = false) :
    digitValue c = none ∨ ∃ d, digitValue c = some d ∧ 10 ≤ d := by
  simp only [isDigit, decide_eq_false_iff_not] at h
  unfold digitValue
  rw [if_neg h]
  by_cases hl : 97 ≤ lower c ∧ lower c ≤ 122
  · right
    exact ⟨_, by rw [if_pos hl], by omega⟩
  · left
    rw [if_neg hl]

theorem maxUint64_eq : maxUint64 = 18446744073709551615 := by decide

/-- The loop of `ParseUint` on a byte that is not a decimal digit. -/
theorem parseUintLoop_not_digit (c : Nat) (cs : GoString) (n : Nat) (h : isDigit c = false) :
    parseUintLoop (c :: cs) n = (0, some NumError.malformed) := by
  rcases digitValue_of_not_digit c h with h0 | ⟨d, h0, hd⟩
  · simp [parseUintLoop, h0]
  · simp [parseUintLoop, h0, hd]

/-- The loop of `ParseUint` on a decimal digit. -/
theorem parseUintLoop_digit (c : Nat) (cs : GoString) (n : Nat) (h : isDigit c = true)
    (hn : n < 2 ^ 64) :
    parseUintLoop (c :: cs) n =
      if decimalStep n c < 2 ^ 64 then parseUintLoop cs (decimalStep n c)
      else (maxUint64, some NumError.outOfRange) := by
  have hc := h
  simp only [isDigit, decide_eq_true_eq] at hc
  rw [parseUintLoop, digitValue_of_digit c h]
  simp only [maxUint64_eq, decimalStep]
  have hd : ¬ (c - 48 ≥ 10) := by omega
  rw [if_neg hd]
  by_cases h1 : n ≥ 18446744073709551615 / 10 + 1
  · rw [if_pos h1, if_neg (by omega)]
  · rw [if_neg h1]
    by_cases h2 : 10 * n + (c - 48) < 2 ^ 64
    · rw [if_pos h2]
      have e1 : n * 10 % 2 ^ 64 = n * 10 := Nat.mod_eq_of_lt (by omega)
      simp only [e1]
      have e2 : (n * 10 + (c - 48)) % 2 ^ 64 = 10 * n + (c - 48) := by
        rw [Nat.mod_eq_of_lt (by omega)]; omega
      simp only [e2]
      rw [if_neg (by omega)]
    · rw [if_neg h2]
      have e1 : n * 10 % 2 ^ 64 = n * 10 := Nat.mod_eq_of_lt (by omega)
      simp only [e1]
      rw [if_pos (by omega)]

/-- What the loop of `ParseUint` returns, in terms of the digits read. -/
theorem parseUintLoop_eq (cs : GoString) (n : Nat) (hn : n < 2 ^ 64) :
    parseUintLoop cs n =
      if cs.all isDigit = true ∧ cs.foldl decimalStep n < 2 ^ 64 then
        (cs.foldl decimalStep n, none)
      else if (parseUintLoop cs n).2 = some NumError.outOfRange then
        (maxUint64, some NumError.outOfRange)
      else (0, some NumError.malformed) := by
  induction cs generalizing n with
  | nil =>
    simp only [parseUintLoop, List.all_nil, List.foldl_nil, true_and]
    rw [if_pos hn]
  | cons c cs ih =>
    cases hc : isDigit c with
    | false => simp [parseUintLoop_not_digit c cs n hc, hc]
    | true =>
      rw [parseUintLoop_digit c cs n hc hn]
      by_cases h2 : decimalStep n c < 2 ^ 64
      · simp only [if_pos h2, List.all_cons, hc, Bool.true_and, List.foldl_cons]
        exact ih _ h2
      · have := le_foldl_decimalStep cs (decimalStep n c)
        simp only [if_neg h2, List.foldl_cons]
        rw [if_neg (by omega)]
        simp

/-- The source's `ParseUint` computes the spec's unsigned 64-bit parse. -/
theorem ParseUint_eq (s : GoString) :
    ParseUint s =
      match decimalUint64 s with
      | some m => (m, none)
      | none =>
        if (ParseUint s).2 = some NumError.outOfRange then (maxUint64, some NumError.outOfRange)
        else (0, some NumError.malformed) := by
  unfold ParseUint decimalUint64 decimalValue
  by_cases hs : s = []
  · subst hs; simp
  · rw [if_neg hs]
    have h := parseUintLoop_eq s 0 (by omega)
    by_cases hd : s.all isDigit = true ∧ s.foldl decimalStep 0 < 2 ^ 64
    · rw [if_pos hd] at h
      rw [if_pos ⟨hs, hd.1, by omega⟩]
      exact h
    · rw [if_neg hd] at h
      rw [if_neg (by intro hh; exact hd ⟨hh.2.1, by omega⟩)]
      exact h

theorem ParseUint_ok_iff (s : GoString) (m : Nat) :
    ParseUint s = (m, none) ↔ decimalUint64 s = some m := by
  have h := ParseUint_eq s
  cases hd : decimalUint64 s with
  | some k =>
    rw [hd] at h
    simp only at h
    rw [h]
    simp
  | none =>
    rw [hd] at h
    simp only at h
    constructor
    · intro hm
      rw [hm] at h
      simp at h
    · intro hm
      cases hm

theorem ParseUint_err_cases (s : GoString) (h : decimalUint64 s = none) :
    ParseUint s = (maxUint64, some NumError.outOfRange) ∨
      ParseUint s = (0, some NumError.malformed) := by
  have h1 := ParseUint_eq s
  rw [h] at h1
  simp only at h1
  by_cases hr : (ParseUint s).2 = some NumError.outOfRange
  · rw [if_pos hr] at h1; exact Or.inl h1
  · rw [if_neg hr] at h1; exact Or.inr h1

theorem signAndDigits_cons (c : Nat) (rest : GoString) :
    signAndDigits (c :: rest) =
      (decide (c = 45), if c = 43 then rest else if c = 45 then rest else c :: rest) := by
  by_cases h1 : c = 43
  · subst h1; simp [signAndDigits]
  · by_cases h2 : c = 45
    · subst h2; simp [signAndDigits]
    · rw [if_neg h1, if_neg h2]
      unfold signAndDigits
      split
      · rename_i heq; simp at heq; omega
      · rename_i heq; simp at heq; omega
      · simp [h2]

/-- The source's `ParseInt` computes the spec's signed 64-bit parse. -/
theorem ParseInt_eq (s : GoString) :
    (∀ m, decimalInt64 s = some m → ParseInt s = (m, none)) ∧
      (decimalInt64 s = none → ∃ v e, ParseInt s = (v, some e)) := by
  cases s with
  | nil => simp [decimalInt64, ParseInt, signAndDigits]
  | cons c rest =>
    unfold decimalInt64 ParseInt
    simp only [signAndDigits_cons]
    generalize (if c = 43 then rest else if c = 45 then rest else c :: rest) = ds
    generalize decide (c = 45) = neg
    have h63 : (2 : Int) ^ 63 = 9223372036854775808 := by norm_num
    have h63n : (2 : Nat) ^ 63 = 9223372036854775808 := by norm_num
    have h64n : (2 : Nat) ^ 64 = 18446744073709551616 := by norm_num
    cases hd : decimalUint64 ds with
    | none =>
      have hno : ¬ (ds ≠ [] ∧ ds.all isDigit = true ∧ decimalValue ds ≤ 2 ^ 64 - 1) := by
        intro hh
        unfold decimalUint64 at hd
        rw [if_pos hh] at hd
        cases hd
      have hnone : ∀ m : Int, ¬ ((if ds ≠ [] ∧ ds.all isDigit = true ∧
          -(2 ^ 63) ≤ (if neg = true then -(decimalValue ds : Int) else (decimalValue ds : Int)) ∧
          (if neg = true then -(decimalValue ds : Int) else (decimalValue ds : Int)) ≤ 2 ^ 63 - 1
          then some (if neg = true then -(decimalValue ds : Int) else (decimalValue ds : Int))
          else none) = some m) := by
        intro m hmm
        by_cases hh : ds ≠ [] ∧ ds.all isDigit = true ∧
          -(2 ^ 63) ≤ (if neg = true then -(decimalValue ds : Int) else (decimalValue ds : Int)) ∧
          (if neg = true then -(decimalValue ds : Int) else (decimalValue ds : Int)) ≤ 2 ^ 63 - 1
        · apply hno
          refine ⟨hh.1, hh.2.1, ?_⟩
          have h3 := hh.2.2
          cases neg
          · simp only [Bool.false_eq_true, if_false] at h3; omega
          · simp only [if_true] at h3; omega
        · rw [if_neg hh] at hmm
          cases hmm
      refine ⟨fun m hmm => absurd hmm (hnone m), fun _ => ?_⟩
      rcases ParseUint_err_cases ds hd with he | he
      · rw [he, maxUint64_eq]
        cases neg
        · exact ⟨_, _, rfl⟩
        · exact ⟨_, _, rfl⟩
      · rw [he]
        exact ⟨_, _, rfl⟩
    | some un =>
      have hok := (ParseUint_ok_iff ds un).2 hd
      rw [hok]
      have hyes : ds ≠ [] ∧ ds.all isDigit = true ∧ decimalValue ds = un := by
        unfold decimalUint64 at hd
        split at hd
        · rename_i hh
          simp only [Option.some.injEq] at hd
          exact ⟨hh.1, hh.2.1, hd⟩
        · cases hd
      obtain ⟨h1, h2, h4⟩ := hyes
      rw [h4]
      simp only [h63n]
      cases neg
      · simp only [Bool.false_eq_true, if_false, not_false_eq_true, true_and, false_and]
        by_cases hr : un ≥ 9223372036854775808
        · rw [if_pos hr, if_neg (by omega)]
          exact ⟨fun m hmm => (by cases hmm), fun _ => ⟨_, _, rfl⟩⟩
        · have hc : ds ≠ [] ∧ ds.all isDigit = true ∧ -(2 : Int) ^ 63 ≤ (un : Int) ∧
              (un : Int) ≤ 2 ^ 63 - 1 := ⟨h1, h2, by omega, by omega⟩
          rw [if_neg hr, if_pos hc]
          exact ⟨fun m hmm => (by cases hmm; rfl), fun hmm => (by cases hmm)⟩
      · simp only [if_true, not_true_eq_false, true_and, false_and, if_false]
        by_cases hr : un > 9223372036854775808
        · rw [if_pos hr, if_neg (by omega)]
          exact ⟨fun m hmm => (by cases hmm), fun _ => ⟨_, _, rfl⟩⟩
        · have hc : ds ≠ [] ∧ ds.all isDigit = true ∧ -(2 : Int) ^ 63 ≤ -(un : Int) ∧
              -(un : Int) ≤ 2 ^ 63 - 1 := ⟨h1, h2, by omega, by omega⟩
          rw [if_neg hr, if_pos hc]
          exact ⟨fun m hmm => (by cases hmm; rfl), fun hmm => (by cases hmm)⟩

theorem ParseInt_ok_iff (s : GoString) (m : Int) :
    ParseInt s = (m, none) ↔ decimalInt64 s = some m := by
  have h := ParseInt_eq s
  constructor
  · intro hp
    cases hd : decimalInt64 s with
    | none =>
      obtain ⟨v, e, he⟩ := h.2 hd
      rw [hp] at he
      cases he
    | some k =>
      have hk := h.1 k hd
      rw [hp] at hk
      cases hk
      rfl
  · exact h.1 m

theorem ParseInt_err_iff (s : GoString) :
    (ParseInt s).2 ≠ none ↔ decimalInt64 s = none := by
  have h := ParseInt_eq s
  constructor
  · intro hp
    cases hd : decimalInt64 s with
    | none => rfl
    | some k =>
      rw [h.1 k hd] at hp
      exact absurd rfl hp
  · intro hd
    obtain ⟨v, e, he⟩ := h.2 hd
    rw [he]
    simp

/-! ### Rune counting on well-formed UTF-8 -/

set_option maxRecDepth 100000 in
/-- The entries of the table `first` for the first bytes that are not special
cases, checked byte by byte. -/
theorem first_table : ∀ c, c < 256 →
    (0xC2 ≤ c ∧ c < 0xE0 → first c = s1) ∧
    ((0xE1 ≤ c ∧ c < 0xED) ∨ (0xEE ≤ c ∧ c < 0xF0) → first c = s3) ∧
    (0xF1 ≤ c ∧ c < 0xF4 → first c = s6) := by
  decide

theorem runeWidth_ascii (b0 : Nat) (rest : GoString) (h : b0 < 0x80) :
    runeWidth b0 rest = 1 := by
  unfold runeWidth
  rw [if_pos (by unfold RuneSelf; omega)]

theorem runeWidth_two (b0 b1 : Nat) (rest : GoString) (h0 : 0xC2 ≤ b0 ∧ b0 < 0xE0)
    (h1 : 0x80 ≤ b1 ∧ b1 ≤ 0xBF) : runeWidth b0 (b1 :: rest) = 2 := by
  have hf : first b0 = s1 := (first_table b0 (by omega)).1 h0
  have ha : acceptRanges (s1 / 16) = (0x80, 0xBF) := by decide
  have hsz : s1 % 8 = 2 := by decide
  have c0 : ¬ b0 < RuneSelf := by unfold RuneSelf; omega
  have c1 : ¬ s1 = xx := by decide
  have c2 : ¬ 1 + (rest.length + 1) < 2 := by omega
  have c3 : ¬ (b1 < 0x80 ∨ 0xBF < b1) := by omega
  unfold runeWidth
  simp only [hf, ha, hsz, List.getD_cons_zero, List.length_cons]
  rw [if_neg c0, if_neg c1, if_neg c2, if_neg c3, if_pos trivial]

theorem runeWidth_three_of (b0 b1 b2 x lo hi : Nat) (rest : GoString) (hb : 0x80 ≤ b0)
    (hf : first b0 = x) (hx : x = s2 ∨ x = s3 ∨ x = s4)
    (ha : acceptRanges (x / 16) = (lo, hi))
    (h1 : lo ≤ b1 ∧ b1 ≤ hi) (h2 : 0x80 ≤ b2 ∧ b2 ≤ 0xBF) :
    runeWidth b0 (b1 :: b2 :: rest) = 3 := by
  have hsz : x % 8 = 3 ∧ x ≠ xx := by
    rcases hx with e | e | e <;> subst e <;> decide
  have c0 : ¬ b0 < RuneSelf := by unfold RuneSelf; omega
  have c2 : ¬ 1 + (rest.length + 1 + 1) < 3 := by omega
  have c3 : ¬ (b1 < lo ∨ hi < b1) := by omega
  have c4 : ¬ (3 = 2) := by omega
  have c5 : ¬ (b2 < 0x80 ∨ 0xBF < b2) := by omega
  unfold runeWidth
  simp only [hf, ha, hsz.1, List.getD_cons_zero, List.getD_cons_succ, List.length_cons, locb,
    hicb]
  rw [if_neg c0, if_neg hsz.2, if_neg c2, if_neg c3, if_neg c4, if_neg c5, if_pos trivial]

theorem runeWidth_three (b0 b1 b2 : Nat) (rest : GoString)
    (h0 : (b0 = 0xE0 ∧ 0xA0 ≤ b1) ∨ (0xE1 ≤ b0 ∧ b0 < 0xED) ∨ (b0 = 0xED ∧ b1 ≤ 0x9F) ∨
      (0xEE ≤ b0 ∧ b0 < 0xF0))
    (h1 : 0x80 ≤ b1 ∧ b1 ≤ 0xBF) (h2 : 0x80 ≤ b2 ∧ b2 ≤ 0xBF) :
    runeWidth b0 (b1 :: b2 :: rest) = 3 := by
  have hs3 : acceptRanges (s3 / 16) = (0x80, 0xBF) := by decide
  rcases h0 with ⟨e, h⟩ | h | ⟨e, h⟩ | h
  · subst e
    exact runeWidth_three_of _ b1 b2 s2 0xA0 0xBF rest (by omega) (by decide) (Or.inl rfl)
      (by decide) ⟨h, h1.2⟩ h2
  · have hf : first b0 = s3 := (first_table b0 (by omega)).2.1 (Or.inl h)
    exact runeWidth_three_of _ b1 b2 s3 0x80 0xBF rest (by omega) hf (Or.inr (Or.inl rfl))
      hs3 h1 h2
  · subst e
    exact runeWidth_three_of _ b1 b2 s4 0x80 0x9F rest (by omega) (by decide)
      (Or.inr (Or.inr rfl)) (by decide) ⟨h1.1, h⟩ h2
  · have hf : first b0 = s3 := (first_table b0 (by omega)).2.1 (Or.inr h)
    exact runeWidth_three_of _ b1 b2 s3 0x80 0xBF rest (by omega) hf (Or.inr (Or.inl rfl))
      hs3 h1 h2

theorem runeWidth_four_of (b0 b1 b2 b3 x lo hi : Nat) (rest : GoString) (hb : 0x80 ≤ b0)
    (hf : first b0 = x) (hx : x = s5 ∨ x = s6 ∨ x = s7)
    (ha : acceptRanges (x / 16) = (lo, hi))
    (h1 : lo ≤ b1 ∧ b1 ≤ hi) (h2 : 0x80 ≤ b2 ∧ b2 ≤ 0xBF) (h3 : 0x80 ≤ b3 ∧ b3 ≤ 0xBF) :
    runeWidth b0 (b1 :: b2 :: b3 :: rest) = 4 := by
  have hsz : x % 8 = 4 ∧ x ≠ xx := by
    rcases hx with e | e | e <;> subst e <;> decide
  have c0 : ¬ b0 < RuneSelf := by unfold RuneSelf; omega
  have c2 : ¬ 1 + (rest.length + 1 + 1 + 1) < 4 := by omega
  have c3 : ¬ (b1 < lo ∨ hi < b1) := by omega
  have c4 : ¬ (4 = 2) := by omega
  have c5 : ¬ (b2 < 0x80 ∨ 0xBF < b2) := by omega
  have c6 : ¬ (4 = 3) := by omega
  have c7 : ¬ (b3 < 0x80 ∨ 0xBF < b3) := by omega
  unfold runeWidth
  simp only [hf, ha, hsz.1, List.getD_cons_zero, List.getD_cons_succ, List.length_cons, locb,
    hicb]
  rw [if_neg c0, if_neg hsz.2, if_neg c2, if_neg c3, if_neg c4, if_neg c5, if_neg c6, if_neg c7]

theorem runeWidth_four (b0 b1 b2 b3 : Nat) (rest : GoString)
    (h0 : (b0 = 0xF0 ∧ 0x90 ≤ b1) ∨ (0xF1 ≤ b0 ∧ b0 < 0xF4) ∨ (b0 = 0xF4 ∧ b1 ≤ 0x8F))
    (h1 : 0x80 ≤ b1 ∧ b1 ≤ 0xBF) (h2 : 0x80 ≤ b2 ∧ b2 ≤ 0xBF) (h3 : 0x80 ≤ b3 ∧ b3 ≤ 0xBF) :
    runeWidth b0 (b1 :: b2 :: b3 :: rest) = 4 := by
  rcases h0 with ⟨e, h⟩ | h | ⟨e, h⟩
  · subst e
    exact runeWidth_four_of _ b1 b2 b3 s5 0x90 0xBF rest (by omega) (by decide) (Or.inl rfl)
      (by decide) ⟨h, h1.2⟩ h2 h3
  · have hf : first b0 = s6 := (first_table b0 (by omega)).2.2 h
    exact runeWidth_four_of _ b1 b2 b3 s6 0x80 0xBF rest (by omega) hf (Or.inr (Or.inl rfl))
      (by decide) h1 h2 h3
  · subst e
    exact runeWidth_four_of _ b1 b2 b3 s7 0x80 0x8F rest (by omega) (by decide)
      (Or.inr (Or.inr rfl)) (by decide) ⟨h1.1, h⟩ h2 h3

/-- The counting loop steps over the encoding of one valid code point and
counts it once. -/
theorem runeCountFrom_EncodeRune (r : Nat) (rest : GoString)
    (hr : r < 0xD800 ∨ (0xDFFF < r ∧ r < 0x110000)) :
    runeCountFrom 0 (EncodeRune r ++ rest) = 1 + runeCountFrom 0 rest := by
  have hlow : 0x80 ≤ 0x80 + r % 64 ∧ 0x80 + r % 64 ≤ 0xBF := by omega
  have hmid : 0x80 ≤ 0x80 + r / 64 % 64 ∧ 0x80 + r / 64 % 64 ≤ 0xBF := by omega
  have hhigh : 0x80 ≤ 0x80 + r / 4096 % 64 ∧ 0x80 + r / 4096 % 64 ≤ 0xBF := by omega
  unfold EncodeRune
  by_cases h1 : r ≤ 0x7F
  · rw [if_pos h1]
    show runeCountFrom 0 (r :: rest) = _
    rw [runeCountFrom, runeWidth_ascii r rest (by omega)]
  · rw [if_neg h1]
    by_cases h2 : r ≤ 0x7FF
    · have hb0 : 0xC2 ≤ 0xC0 + r / 64 ∧ 0xC0 + r / 64 < 0xE0 := by omega
      rw [if_pos h2]
      show runeCountFrom 0 ((0xC0 + r / 64) :: (0x80 + r % 64) :: rest) = _
      rw [runeCountFrom, runeWidth_two _ _ rest hb0 hlow]
      rfl
    · have hsur : ¬ (r > 0x10FFFF ∨ (0xD800 ≤ r ∧ r ≤ 0xDFFF)) := by omega
      rw [if_neg h2, if_neg hsur]
      by_cases h3 : r ≤ 0xFFFF
      · have hb0 : (0xE0 + r / 4096 = 0xE0 ∧ 0xA0 ≤ 0x80 + r / 64 % 64) ∨
            (0xE1 ≤ 0xE0 + r / 4096 ∧ 0xE0 + r / 4096 < 0xED) ∨
            (0xE0 + r / 4096 = 0xED ∧ 0x80 + r / 64 % 64 ≤ 0x9F) ∨
            (0xEE ≤ 0xE0 + r / 4096 ∧ 0xE0 + r / 4096 < 0xF0) := by omega
        rw [if_pos h3]
        show runeCountFrom 0
          ((0xE0 + r / 4096) :: (0x80 + r / 64 % 64) :: (0x80 + r % 64) :: rest) = _
        rw [runeCountFrom, runeWidth_three _ _ _ rest hb0 hmid hlow]
        rfl
      · have hb0 : (0xF0 + r / 262144 = 0xF0 ∧ 0x90 ≤ 0x80 + r / 4096 % 64) ∨
            (0xF1 ≤ 0xF0 + r / 262144 ∧ 0xF0 + r / 262144 < 0xF4) ∨
            (0xF0 + r / 262144 = 0xF4 ∧ 0x80 + r / 4096 % 64 ≤ 0x8F) := by omega
        rw [if_neg h3]
        show runeCountFrom 0 ((0xF0 + r / 262144) :: (0x80 + r / 4096 % 64) ::
          (0x80 + r / 64 % 64) :: (0x80 + r % 64) :: rest) = _
        rw [runeCountFrom, runeWidth_four _ _ _ _ rest hb0 hhigh hmid hlow]
        rfl

/-- On the UTF-8 encoding of a sequence of code points, `RuneCountInString` is
the number of code points. -/
theorem RuneCountInString_encodeRunes (cs : List Char) :
    RuneCountInString (encodeRunes cs) = cs.length := by
  unfold RuneCountInString
  induction cs with
  | nil => rfl
  | cons c cs ih =>
    have hv : c.toNat < 0xD800 ∨ (0xDFFF < c.toNat ∧ c.toNat < 0x110000) := c.valid
    rw [encodeRunes, runeCountFrom_EncodeRune _ _ hv, ih, List.length_cons]
    omega

/-! ## The rule evaluator -/

theorem Split_ne_nil (s : GoString) (sep : Nat) : Split s sep ≠ [] := by
  induction s with
  | nil => simp [Split]
  | cons c cs ih =>
    unfold Split
    split_ifs
    · simp
    · split
      · simp
      · simp

theorem anyDependencyNotEmpty_of_present (parent : Value) (pre post : List GoString)
    (tok : GoString)
    (hpre : ∀ d ∈ pre, isPropertyNotEmpty parent (Split d 46) = some false)
    (htok : isPropertyNotEmpty parent (Split tok 46) = some true) :
    anyDependencyNotEmpty parent (pre ++ tok :: post) = some true := by
  induction pre with
  | nil => simp [anyDependencyNotEmpty, htok]
  | cons d ds ih =>
    have hd := hpre d (List.mem_cons_self d ds)
    have := ih (fun x hx => hpre x (List.mem_cons_of_mem d hx))
    simp [anyDependencyNotEmpty, hd, this]

theorem anyDependencyNotEmpty_of_absent (parent : Value) (deps : List GoString)
    (h : ∀ d ∈ deps, isPropertyNotEmpty parent (Split d 46) = some false) :
    anyDependencyNotEmpty parent deps = some false := by
  induction deps with
  | nil => rfl
  | cons d ds ih =>
    have hd := h d (List.mem_cons_self d ds)
    have := ih (fun x hx => h x (List.mem_cons_of_mem d hx))
    simp [anyDependencyNotEmpty, hd, this]

/-- What `maxWithout` computes, in terms of its loop and of the last token. -/
theorem maxWithout_eq (lib : Lib) (field parent : Value) (param : GoString) :
    maxWithout lib field parent param =
      match anyDependencyNotEmpty parent (dependencyTokens param) with
      | none => none
      | some true => some true
      | some false => some (isLessOrEqual lib field (thresholdToken param)) := by
  have hne := Split_ne_nil param 32
  have hlen : ¬ (Split param 32).length < 1 := by
    cases h : Split param 32 with
    | nil => exact absurd h hne
    | cons a l => simp
  have hlast : (Split param 32)[(Split param 32).length - 1]? =
      some ((Split param 32).getLastD []) := by
    rw [← List.getLast?_eq_getElem?]
    cases h : Split param 32 with
    | nil => exact absurd h hne
    | cons a l => simp [List.getLast?_cons]
  unfold maxWithout dependencyTokens thresholdToken
  simp only [hlen, if_false, List.dropLast_eq_take, hlast]
  cases anyDependencyNotEmpty parent (List.take ((Split param 32).length - 1) (Split param 32)) with
  | none => rfl
  | some b => cases b <;> rfl


/-! ## Lemmas on the threshold comparator -/

theorem isLessOrEqual_uint (lib : Lib) (t : UintType) (u : Nat) (s : GoString) :
    isLessOrEqual lib (.uint t u) s =
      match decimalUint64 s with
      | some m => decide (u ≤ m)
      | none => false := by
  have h : isLessOrEqual lib (.uint t u) s =
      match ParseUint s with
      | (_, some _) => false
      | (maxValue, none) => decide (u ≤ maxValue) := by
    cases t <;> rfl
  rw [h]
  cases hd : decimalUint64 s with
  | some m => rw [(ParseUint_ok_iff s m).2 hd]
  | none => rcases ParseUint_err_cases s hd with e | e <;> rw [e]

/-- The comparison every branch of `isLessOrEqual` with an integer threshold
makes, once `ParseInt` is replaced by what it computes. -/
theorem parseInt_match (s : GoString) (i : Int) :
    (match ParseInt s with
      | (_, some _) => false
      | (maxValue, none) => decide (i ≤ maxValue)) =
      match decimalInt64 s with
      | some m => decide (i ≤ m)
      | none => false := by
  cases hd : decimalInt64 s with
  | some m => rw [(ParseInt_eq s).1 m hd]
  | none =>
    obtain ⟨v, e, he⟩ := (ParseInt_eq s).2 hd
    rw [he]

theorem isLessOrEqual_int (lib : Lib) (t : IntType) (i : Int) (s : GoString)
    (ht : t ≠ IntType.duration) :
    isLessOrEqual lib (.int t i) s =
      match decimalInt64 s with
      | some m => decide (i ≤ m)
      | none => false := by
  rw [← parseInt_match]
  cases t <;> first | rfl | exact absurd rfl ht

theorem isLessOrEqual_duration (lib : Lib) (d : Int) (s : GoString) :
    isLessOrEqual lib (.int .duration d) s =
      match lib.ParseDuration s with
      | some m => decide (d ≤ m)
      | none =>
        match decimalInt64 s with
        | some m => decide (d ≤ m)
        | none => false := by
  rw [← parseInt_match]
  unfold isLessOrEqual
  simp only [Value.Kind, Value.isDuration, Value.Int, if_true]
  cases lib.ParseDuration s <;> rfl

theorem isLessOrEqual_string (lib : Lib) (b : GoString) (s : GoString) :
    isLessOrEqual lib (.string b) s =
      match decimalInt64 s with
      | some m => decide ((RuneCountInString b : Int) ≤ m)
      | none => false := by
  rw [← parseInt_match]
  rfl

theorem isLessOrEqual_collection (lib : Lib) (v : Value) (s : GoString)
    (hk : v.Kind = Kind.Slice ∨ v.Kind = Kind.Map ∨ v.Kind = Kind.Array) :
    isLessOrEqual lib v s =
      match decimalInt64 s with
      | some m => decide ((((v.Len).getD 0 : Nat) : Int) ≤ m)
      | none => false := by
  rw [← parseInt_match]
  unfold isLessOrEqual
  rcases hk with h | h | h <;> rw [h]

theorem decimalUint64_of_err (s : GoString) (h : (ParseUint s).2.isSome = true) :
    decimalUint64 s = none := by
  cases hd : decimalUint64 s with
  | none => rfl
  | some m =>
    rw [(ParseUint_ok_iff s m).2 hd] at h
    cases h

theorem decimalInt64_of_err (s : GoString) (h : (ParseInt s).2.isSome = true) :
    decimalInt64 s = none := by
  apply (ParseInt_err_iff s).1
  intro hn
  rw [hn] at h
  cases h

/-! ## Claims on the rule evaluator `maxWithout` -/

/-- C1, as stated, fails: with parameter `Nope Filters.StringF 10` the dependency
token `Filters.StringF` resolves to present, yet `maxWithout` does not return
true: the earlier token `Nope` names no field, `FieldByName` returns the zero
Value and `IsZero` panics on it. -/
theorem C1_counterexample :
    str "Filters.StringF" ∈ dependencyTokens (str "Nope Filters.StringF 10") ∧
      isPropertyNotEmpty (testData (str "a") none) (Split (str "Filters.StringF") 46) =
        some true ∧
      maxWithout sampleLib (.uint .uint64 20) (testData (str "a") none)
        (str "Nope Filters.StringF 10") = none := by
  refine ⟨by decide, by decide, by decide⟩

/-- C1 (amended): if a dependency path token resolves to present and every
dependency token before it resolves to absent, `maxWithout` returns true,
whatever the field value and the threshold literal are. -/
theorem C1_maxWithout_dependency_present (lib : Lib) (field parent : Value)
    (param : GoString) (pre post : List GoString) (tok : GoString)
    (hsplit : dependencyTokens param = pre ++ tok :: post)
    (hpre : ∀ d ∈ pre, isPropertyNotEmpty parent (Split d 46) = some false)
    (htok : isPropertyNotEmpty parent (Split tok 46) = some true) :
    maxWithout lib field parent param = some true := by
  rw [maxWithout_eq, hsplit, anyDependencyNotEmpty_of_present parent pre post tok hpre htok]

/-- C1 witness: `Limit = 20`, parameter `Filters.StringF 10`, `Filters.StringF = "a"`
passes. -/
theorem C1_witness :
    maxWithout sampleLib (.uint .uint64 20) (testData (str "a") none)
      (str "Filters.StringF 10") = some true :=
  C1_maxWithout_dependency_present sampleLib (.uint .uint64 20) (testData (str "a") none)
    (str "Filters.StringF 10") [] [] (str "Filters.StringF") (by decide)
    (by intro d hd; cases hd) (by decide)

/-- C2, as stated, fails: with parameter `Nope 10` no dependency path resolves to
present, yet `maxWithout` does not return the result of `isLessOrEqual` (here
`false`, since 20 > 10): the lookup of `Nope` panics. -/
theorem C2_counterexample :
    dependencyTokens (str "Nope 10") = [str "Nope"] ∧
      isPropertyNotEmpty (testData (str "a") none) (Split (str "Nope") 46) = none ∧
      maxWithout sampleLib (.uint .uint64 20) (testData (str "a") none) (str "Nope 10") =
        none ∧
      isLessOrEqual sampleLib (.uint .uint64 20) (thresholdToken (str "Nope 10")) = false := by
  refine ⟨by decide, by decide, by decide, by decide⟩

/-- C2 (amended): when every dependency path token resolves to absent (in
particular when there is none), `maxWithout` returns what `isLessOrEqual`
returns on the field and the last token. -/
theorem C2_maxWithout_no_dependency (lib : Lib) (field parent : Value) (param : GoString)
    (habsent : ∀ tok ∈ dependencyTokens param,
      isPropertyNotEmpty parent (Split tok 46) = some false) :
    maxWithout lib field parent param =
      some (isLessOrEqual lib field (thresholdToken param)) := by
  rw [maxWithout_eq, anyDependencyNotEmpty_of_absent parent _ habsent]

/-- C2 witness: `Limit = 20`, parameter `Filters.StringF 10`, `Filters.StringF = ""`
fails. -/
theorem C2_witness :
    maxWithout sampleLib (.uint .uint64 20) (testData (str "") none)
      (str "Filters.StringF 10") = some false :=
  (C2_maxWithout_no_dependency sampleLib (.uint .uint64 20) (testData (str "") none)
    (str "Filters.StringF 10") (by decide)).trans (by decide)

/-! ## Claims on the threshold comparator `isLessOrEqual` -/

/-- C3: for a value of an unsigned integer kind, `isLessOrEqual` is true exactly
when the literal parses as a base-10 unsigned 64-bit integer `m` (which is what
the source's `ParseUint` accepts) and the value is at most `m`. -/
theorem C3_isLessOrEqual_unsigned (lib : Lib) (t : UintType) (v : Nat) (s : GoString) :
    (isLessOrEqual lib (.uint t v) s = true ↔ ∃ m, decimalUint64 s = some m ∧ v ≤ m) ∧
      ∀ m, ParseUint s = (m, none) ↔ decimalUint64 s = some m := by
  refine ⟨?_, ParseUint_ok_iff s⟩
  rw [isLessOrEqual_uint]
  cases decimalUint64 s with
  | some m => simp
  | none => simp

/-- C3 witness: uint64 9 against "10" is true. -/
theorem C3_witness : isLessOrEqual sampleLib (.uint .uint64 9) (str "10") = true :=
  ((C3_isLessOrEqual_unsigned sampleLib .uint64 9 (str "10")).1).2 ⟨10, by decide, by decide⟩

/-- C4: for a value of a signed integer kind that is not a duration,
`isLessOrEqual` is true exactly when the literal parses as a base-10 signed
64-bit integer `m` (which is what the source's `ParseInt` accepts) and the
value is at most `m`. -/
theorem C4_isLessOrEqual_signed (lib : Lib) (t : IntType) (v : Int) (s : GoString)
    (ht : t ≠ IntType.duration) :
    (isLessOrEqual lib (.int t v) s = true ↔ ∃ m, decimalInt64 s = some m ∧ v ≤ m) ∧
      ∀ m, ParseInt s = (m, none) ↔ decimalInt64 s = some m := by
  refine ⟨?_, ParseInt_ok_iff s⟩
  rw [isLessOrEqual_int lib t v s ht]
  cases decimalInt64 s with
  | some m => simp
  | none => simp

/-- C4 witness: int 10 against "10" is true, int 11 against "10" is false. -/
theorem C4_witness :
    isLessOrEqual sampleLib (.int .int 10) (str "10") = true ∧
      isLessOrEqual sampleLib (.int .int 11) (str "10") = false :=
  ⟨((C4_isLessOrEqual_signed sampleLib .int 10 (str "10") (by decide)).1).2
      ⟨10, by decide, by decide⟩,
    by decide⟩

/-- C5: for a string value and a literal that parses as the signed 64-bit
integer `m`, `isLessOrEqual` is true exactly when the rune count of the string
is at most `m`; and for the UTF-8 encoding of a text, the rune count is the
number of code points of the text, not the number of bytes. -/
theorem C5_isLessOrEqual_string (lib : Lib) (s : GoString) (m : Int)
    (hs : decimalInt64 s = some m) :
    (∀ b : GoString, isLessOrEqual lib (.string b) s = true ↔
        (RuneCountInString b : Int) ≤ m) ∧
      (∀ text : String, isLessOrEqual lib (.string (str text)) s = true ↔
        (text.length : Int) ≤ m) := by
  have h1 : ∀ b : GoString, isLessOrEqual lib (.string b) s = true ↔
      (RuneCountInString b : Int) ≤ m := by
    intro b
    rw [isLessOrEqual_string, hs]
    simp
  refine ⟨h1, fun text => ?_⟩
  rw [h1, str, RuneCountInString_encodeRunes]
  rfl

/-- C5 witness: "ab" against "2" is true, "abc" against "2" is false, and a
string of two two-byte characters (four bytes) passes against "2". -/
theorem C5_witness :
    isLessOrEqual sampleLib (.string (str "ab")) (str "2") = true ∧
      isLessOrEqual sampleLib (.string (str "abc")) (str "2") = false ∧
      (str "éé").length = 4 ∧
      isLessOrEqual sampleLib (.string (str "éé")) (str "2") = true :=
  ⟨((C5_isLessOrEqual_string sampleLib (str "2") 2 (by decide)).2 "ab").2 (by decide),
    by decide, by decide,
    ((C5_isLessOrEqual_string sampleLib (str "2") 2 (by decide)).2 "éé").2 (by decide)⟩

/-- C6: for a sequence, a mapping or a fixed array and a literal that parses as
the signed 64-bit integer `m`, `isLessOrEqual` is true exactly when the element
count is at most `m`. -/
theorem C6_isLessOrEqual_collection (lib : Lib) (v : Value) (s : GoString) (m : Int)
    (hk : v.Kind = Kind.Slice ∨ v.Kind = Kind.Map ∨ v.Kind = Kind.Array)
    (hs : decimalInt64 s = some m) :
    isLessOrEqual lib v s = true ↔ (elementCount v : Int) ≤ m := by
  have hlen : (v.Len).getD 0 = elementCount v := by
    cases v with
    | slice e => cases e <;> rfl
    | map e => cases e <;> rfl
    | array e => rfl
    | int t i => cases t <;> simp [Value.Kind] at hk
    | uint t u => cases t <;> simp [Value.Kind] at hk
    | float t b => cases t <;> simp [Value.Kind] at hk
    | complex w r i => cases w <;> simp [Value.Kind] at hk
    | _ => simp [Value.Kind] at hk
  rw [isLessOrEqual_collection lib v s hk, hs, hlen]
  simp

/-- C6 witness: a 2-element slice against "2" is true, a 3-element slice is
false, an empty slice is true. -/
theorem C6_witness :
    isLessOrEqual sampleLib (.slice (some [.int .int64 1, .int .int64 2])) (str "2") = true ∧
      isLessOrEqual sampleLib (.slice (some [.int .int64 1, .int .int64 2, .int .int64 3]))
        (str "2") = false ∧
      isLessOrEqual sampleLib (.slice (some [])) (str "2") = true :=
  ⟨(C6_isLessOrEqual_collection sampleLib (.slice (some [.int .int64 1, .int .int64 2]))
      (str "2") 2 (Or.inl rfl) (by decide)).2 (by decide),
    by decide,
    (C6_isLessOrEqual_collection sampleLib (.slice (some [])) (str "2") 2 (Or.inl rfl)
      (by decide)).2 (by decide)⟩

/-- C7: for a value of a supported kind and a literal that the parser assigned
to that kind rejects, `isLessOrEqual` returns false (it is a total function:
no error or fault is produced). -/
theorem C7_isLessOrEqual_rejected_literal (lib : Lib) (value : Value) (s : GoString)
    (h : literalRejected lib value s = true) : isLessOrEqual lib value s = false := by
  cases value with
  | uint t u =>
    rw [isLessOrEqual_uint, decimalUint64_of_err s h]
  | int t i =>
    by_cases ht : t = IntType.duration
    · subst ht
      simp only [literalRejected, Bool.and_eq_true, Option.isNone_iff_eq_none] at h
      rw [isLessOrEqual_duration, h.1, decimalInt64_of_err s h.2]
    · have h2 : (ParseInt s).2.isSome = true := by
        cases t <;> first | exact h | exact absurd rfl ht
      rw [isLessOrEqual_int lib t i s ht, decimalInt64_of_err s h2]
  | string b =>
    rw [isLessOrEqual_string, decimalInt64_of_err s h]
  | slice e =>
    rw [isLessOrEqual_collection lib (.slice e) s (Or.inl rfl), decimalInt64_of_err s h]
  | map e =>
    rw [isLessOrEqual_collection lib (.map e) s (Or.inr (Or.inl rfl)), decimalInt64_of_err s h]
  | array e =>
    rw [isLessOrEqual_collection lib (.array e) s (Or.inr (Or.inr rfl)), decimalInt64_of_err s h]
  | float t bits =>
    simp only [literalRejected, Option.isNone_iff_eq_none] at h
    cases t <;> simp [isLessOrEqual, Value.Kind, h]
  | time t loc =>
    simp only [literalRejected, Option.isNone_iff_eq_none] at h
    simp [isLessOrEqual, Value.Kind, Value.asTime, h]
  | invalid => simp [literalRejected] at h
  | bool b => simp [literalRejected] at h
  | complex w r i => simp [literalRejected] at h
  | chan c => simp [literalRejected] at h
  | func n => simp [literalRejected] at h
  | iface e => simp [literalRejected] at h
  | ptr e => simp [literalRejected] at h
  | struct fs => simp [literalRejected] at h
  | unsafePointer n => simp [literalRejected] at h
  | embedStruct fs ps => simp [literalRejected] at h

/-- C7 witness: the literal "abc" is rejected for an int, "-1" for a uint64,
"1h" for a string, and "x" for a duration by both of its parsers. -/
theorem C7_witness :
    isLessOrEqual sampleLib (.int .int 5) (str "abc") = false ∧
      isLessOrEqual sampleLib (.uint .uint64 0) (str "-1") = false ∧
      isLessOrEqual sampleLib (.string (str "a")) (str "1h") = false ∧
      isLessOrEqual sampleLib (.int .duration 0) (str "x") = false :=
  ⟨C7_isLessOrEqual_rejected_literal sampleLib (.int .int 5) (str "abc") (by decide),
    C7_isLessOrEqual_rejected_literal sampleLib (.uint .uint64 0) (str "-1") (by decide),
    C7_isLessOrEqual_rejected_literal sampleLib (.string (str "a")) (str "1h") (by decide),
    C7_isLessOrEqual_rejected_literal sampleLib (.int .duration 0) (str "x") (by decide)⟩

/-- C8: for a value whose kind is none of unsigned integer, signed integer,
string, sequence, mapping, fixed array, floating point or calendar timestamp,
`isLessOrEqual` returns false for every literal. -/
theorem C8_isLessOrEqual_unsupported_kind (lib : Lib) (value : Value) (s : GoString)
    (h : supportedKind value = false) : isLessOrEqual lib value s = false := by
  cases value with
  | invalid => rfl
  | bool b => rfl
  | complex w r i => cases w <;> rfl
  | chan c => rfl
  | func n => rfl
  | iface e => rfl
  | ptr e => rfl
  | struct fs => rfl
  | unsafePointer n => rfl
  | embedStruct fs ps => rfl
  | uint t u => simp [supportedKind] at h
  | int t i => simp [supportedKind] at h
  | string b => simp [supportedKind] at h
  | slice e => simp [supportedKind] at h
  | map e => simp [supportedKind] at h
  | array e => simp [supportedKind] at h
  | float t bits => simp [supportedKind] at h
  | time t loc => simp [supportedKind] at h

/-- C8 witness: a boolean, a pointer to an integer and a struct that is not a
timestamp fail against the literal "10". -/
theorem C8_witness :
    isLessOrEqual sampleLib (.bool true) (str "10") = false ∧
      isLessOrEqual sampleLib (.ptr (some (.int .int 1))) (str "10") = false ∧
      isLessOrEqual sampleLib (.struct [(str "A", .int .int 1)]) (str "10") = false :=
  ⟨C8_isLessOrEqual_unsupported_kind sampleLib (.bool true) (str "10") (by decide),
    C8_isLessOrEqual_unsupported_kind sampleLib (.ptr (some (.int .int 1))) (str "10")
      (by decide),
    C8_isLessOrEqual_unsupported_kind sampleLib (.struct [(str "A", .int .int 1)]) (str "10")
      (by decide)⟩

/-- C10: for a duration value `d`: when the literal parses as a duration of `m`
nanoseconds the result is `d ≤ m` (whatever the integer parse would give);
otherwise, when it parses as a signed 64-bit integer `n`, the result is
`d ≤ n`; when neither parse succeeds the result is false. -/
theorem C10_isLessOrEqual_duration (lib : Lib) (d : Int) (s : GoString) :
    (∀ m, lib.ParseDuration s = some m →
        (isLessOrEqual lib (.int .duration d) s = true ↔ d ≤ m)) ∧
      (∀ n, lib.ParseDuration s = none → decimalInt64 s = some n →
        (isLessOrEqual lib (.int .duration d) s = true ↔ d ≤ n)) ∧
      (lib.ParseDuration s = none → decimalInt64 s = none →
        isLessOrEqual lib (.int .duration d) s = false) := by
  rw [isLessOrEqual_duration]
  refine ⟨fun m hm => ?_, fun n hd hn => ?_, fun hd hn => ?_⟩
  · rw [hm]; simp
  · rw [hd, hn]; simp
  · rw [hd, hn]

/-- C10 witness: against "1h" a duration of one hour passes and one nanosecond
more fails; against the plain integer "10" a duration of 10 ns passes; against
"x" every duration fails. -/
theorem C10_witness :
    (isLessOrEqual sampleLib (.int .duration 3600000000000) (str "1h") = true ↔
        (3600000000000 : Int) ≤ 3600000000000) ∧
      (isLessOrEqual sampleLib (.int .duration 10) (str "10") = true ↔ (10 : Int) ≤ 10) ∧
      isLessOrEqual sampleLib (.int .duration 0) (str "x") = false ∧
      isLessOrEqual sampleLib (.int .duration 3600000000001) (str "1h") = false :=
  ⟨(C10_isLessOrEqual_duration sampleLib 3600000000000 (str "1h")).1 3600000000000
      (by decide),
    (C10_isLessOrEqual_duration sampleLib 10 (str "10")).2.1 10 (by decide) (by decide),
    (C10_isLessOrEqual_duration sampleLib 0 (str "x")).2.2 (by decide) (by decide),
    by decide⟩

/-! ## Lemmas on the dependency resolver -/

/-- The conditional unwrapping at the entry of `isPropertyNotEmpty` hands the
unwrapped value to the rest of the body. -/
theorem bind_unwrapped {β : Type} (v : Value) (k : Value → Option β) :
    (if v.Kind = Kind.Pointer then v.Elem >>= k else some v >>= k) = k (unwrapped v) := by
  cases v with
  | ptr e => rfl
  | int t i => cases t <;> rfl
  | uint t u => cases t <;> rfl
  | float t b => cases t <;> rfl
  | complex w r i => cases w <;> rfl
  | _ => rfl

/-- One step of `isPropertyNotEmpty` on a non-empty path: look the field up,
stop with false on a zero field, go on into a non-zero field, panic when the
field does not exist. -/
theorem isPropertyNotEmpty_cons (v : Value) (name : GoString) (rest : List GoString) :
    isPropertyNotEmpty v (name :: rest) =
      match fieldOf v name with
      | none => none
      | some f =>
        match f.IsZero with
        | none => none
        | some true => some false
        | some false => isPropertyNotEmpty f rest := by
  rw [isPropertyNotEmpty]
  simp only [bind_unwrapped]
  unfold fieldOf Value.FieldByName
  cases hf : (unwrapped v).fields with
  | none => rfl
  | some fs =>
    simp only [Option.bind_eq_bind]
    cases hl : Value.lookupField name fs with
    | some f =>
      simp only [Option.some_bind]
      cases hz : f.IsZero with
      | none => rfl
      | some b => cases b <;> rfl
    | none =>
      simp only
      cases hp : Value.lookupPromoted name (unwrapped v).promoted with
      | none => rfl
      | some r =>
        cases r with
        | none => rfl
        | some f =>
          simp only [Option.some_bind]
          cases hz : f.IsZero with
          | none => rfl
          | some b => cases b <;> rfl

/-- The classification `isPropertyNotEmpty` makes on the empty path. -/
theorem isPropertyNotEmpty_nil (v : Value) (h : unwrapped v ≠ Value.invalid) :
    isPropertyNotEmpty v [] = some (presentByKind (unwrapped v)) := by
  rw [isPropertyNotEmpty]
  simp only [bind_unwrapped]
  generalize unwrapped v = u at h
  cases u with
  | invalid => exact absurd rfl h
  | int t i => cases t <;> rfl
  | uint t u => cases t <;> rfl
  | float t b => cases t <;> rfl
  | complex w r i => cases w <;> rfl
  | slice e => cases e <;> simp [Value.Kind, Value.IsNil, Value.Len, presentByKind]
  | map e => cases e <;> simp [Value.Kind, Value.IsNil, Value.Len, presentByKind]
  | ptr e => cases e <;> rfl
  | iface e => cases e <;> rfl
  | chan c => cases c <;> rfl
  | func n => cases n <;> rfl
  | _ => rfl

/-- Walking a prefix of non-zero fields leaves the rest of the path to be
resolved from the value reached. -/
theorem isPropertyNotEmpty_descend (root v : Value) (pre path : List GoString)
    (h : descend root pre = some v) :
    isPropertyNotEmpty root (pre ++ path) = isPropertyNotEmpty v path := by
  induction pre generalizing root with
  | nil =>
    simp only [descend, Option.some.injEq] at h
    rw [h, List.nil_append]
  | cons p ps ih =>
    rw [List.cons_append, isPropertyNotEmpty_cons]
    unfold descend at h
    cases hf : fieldOf root p with
    | none => rw [hf] at h; cases h
    | some f =>
      rw [hf] at h
      simp only at h
      by_cases hz : f.IsZero = some false
      · rw [if_pos hz] at h
        simp only [hz]
        exact ih f h
      · rw [if_neg hz] at h
        cases h

/-- A value whose zero test answers is not the zero Value. -/
theorem ne_invalid_of_IsZero (f : Value) (b : Bool) (h : f.IsZero = some b) :
    f ≠ Value.invalid := by
  intro e
  rw [e] at h
  cases h

/-- A valid value answers the zero test. -/
theorem IsZero_of_ne_invalid (f : Value) (h : f ≠ Value.invalid) : f.IsZero = some f.zero := by
  cases f with
  | invalid => exact absurd rfl h
  | _ => rfl

/-- What `isPropertyNotEmpty` returns on a path of one segment that names an
existing field `f`: false on a zero field, the classification of the unwrapped
field otherwise. -/
theorem isPropertyNotEmpty_field (v f : Value) (name : GoString)
    (hf : fieldOf v name = some f) (hv : f ≠ Value.invalid)
    (hu : f.zero = false → unwrapped f ≠ Value.invalid) :
    isPropertyNotEmpty v [name] = some (!f.zero && presentByKind (unwrapped f)) := by
  rw [isPropertyNotEmpty_cons, hf]
  simp only [IsZero_of_ne_invalid f hv]
  cases hz : f.zero with
  | true => rfl
  | false =>
    simp only [Bool.not_false, Bool.true_and]
    exact isPropertyNotEmpty_nil f (hu hz)

theorem fieldOf_struct (fs : List (GoString × Value)) (name : GoString) :
    fieldOf (.struct fs) name = Value.lookupField name fs := by
  unfold fieldOf
  simp only [unwrapped, Value.fields, Value.promoted, Value.lookupPromoted]
  cases Value.lookupField name fs <;> rfl

/-! ## Lemmas on literals out of range -/

theorem signAndDigits_of_digits (s : GoString) (h : s.all isDigit = true) :
    signAndDigits s = (false, s) := by
  cases s with
  | nil => rfl
  | cons c rest =>
    have hc : isDigit c = true := by
      simp only [List.all_cons, Bool.and_eq_true] at h
      exact h.1
    simp only [isDigit, decide_eq_true_eq] at hc
    have h43 : ¬ c = 43 := by omega
    have h45 : ¬ c = 45 := by omega
    rw [signAndDigits_cons, if_neg h43, if_neg h45]
    simp [h45]

theorem decimalInt64_of_large (s : GoString) (n : Int) (h : decimalInteger s = some n)
    (hn : 2 ^ 63 - 1 < n) : decimalInt64 s = none := by
  unfold decimalInteger at h
  unfold decimalInt64
  simp only at h ⊢
  by_cases hc : (signAndDigits s).2 ≠ [] ∧ (signAndDigits s).2.all isDigit = true
  · rw [if_pos hc] at h
    simp only [Option.some.injEq] at h
    rw [h]
    have hno : ¬ ((signAndDigits s).2 ≠ [] ∧ (signAndDigits s).2.all isDigit = true ∧
        -(2 ^ 63) ≤ n ∧ n ≤ 2 ^ 63 - 1) := by
      intro hh
      omega
    rw [if_neg hno]
  · rw [if_neg hc] at h
    cases h

theorem decimalUint64_of_large (s : GoString) (n : Int) (h : decimalInteger s = some n)
    (hn : 2 ^ 64 - 1 < n) : decimalUint64 s = none := by
  unfold decimalUint64
  by_cases hd : s ≠ [] ∧ s.all isDigit = true ∧ decimalValue s ≤ 2 ^ 64 - 1
  · exfalso
    unfold decimalInteger at h
    simp only [signAndDigits_of_digits s hd.2.1] at h
    rw [if_pos ⟨hd.1, hd.2.1⟩] at h
    simp only [Bool.false_eq_true, if_false, Option.some.injEq] at h
    have := hd.2.2
    omega
  · rw [if_neg hd]

/-! ## Lemmas on the zero test -/

theorem f64Eq_zero_iff (bits : Nat) : f64Eq bits 0 = true ↔ bits % 2 ^ 63 = 0 := by
  have h0 : f64IsNaN 0 = false := by decide
  have hk : f64Key 0 = 0 := by decide
  unfold f64Eq
  rw [h0, hk]
  unfold f64IsNaN f64Key
  simp only [Bool.not_false, Bool.and_true, Bool.and_eq_true, Bool.not_eq_true',
    decide_eq_false_iff_not, decide_eq_true_eq]
  constructor
  · intro h
    split_ifs at h <;> omega
  · intro h
    constructor
    · omega
    · split_ifs <;> omega

theorem zeroAll_iff (es : List Value) :
    Value.zeroAll es = true ↔ ∀ e ∈ es, e.zero = true := by
  induction es with
  | nil => simp [Value.zeroAll]
  | cons e es ih => simp [Value.zeroAll, ih]

theorem zeroFields_iff (fs : List (GoString × Value)) :
    Value.zeroFields fs = true ↔ ∀ p ∈ fs, p.1 = Value.blankName ∨ p.2.zero = true := by
  induction fs with
  | nil => simp [Value.zeroFields]
  | cons p fs ih =>
    obtain ⟨n, v⟩ := p
    simp [Value.zeroFields, ih]

theorem str_blank : str "_" = Value.blankName := by decide

/-- The zero test of `reflect` accepts every zero value of the language. -/
theorem zero_of_ZeroValue (v : Value) (h : ZeroValue v) : v.zero = true := by
  induction h with
  | bool => rfl
  | int t => simp [Value.zero]
  | uint t => simp [Value.zero]
  | float t bits h => exact (f64Eq_zero_iff bits).2 h
  | complex w re im hre him =>
    simp only [Value.zero, Bool.and_eq_true]
    exact ⟨(f64Eq_zero_iff re).2 hre, (f64Eq_zero_iff im).2 him⟩
  | array es _ ih =>
    simp only [Value.zero]
    exact (zeroAll_iff es).2 ih
  | chan => rfl
  | func => rfl
  | iface => rfl
  | map => rfl
  | ptr => rfl
  | slice => rfl
  | string => rfl
  | struct fs _ ih =>
    simp only [Value.zero]
    rw [zeroFields_iff]
    intro p hp
    rw [← str_blank]
    by_cases hb : p.1 = str "_"
    · exact Or.inl hb
    · exact Or.inr (ih p hp hb)
  | time => rfl
  | unsafePointer => rfl
  | embedStruct fs ps _ ih =>
    simp only [Value.zero]
    rw [zeroFields_iff]
    intro p hp
    rw [← str_blank]
    by_cases hb : p.1 = str "_"
    · exact Or.inl hb
    · exact Or.inr (ih p hp hb)

mutual
/-- The zero test of `reflect` accepts only zero values of the language. -/
theorem ZeroValue_of_zero : (v : Value) → v.zero = true → ZeroValue v
  | .invalid, h => by simp [Value.zero] at h
  | .bool b, h => by
    cases b
    · exact ZeroValue.bool
    · simp [Value.zero] at h
  | .int t i, h => by
    simp only [Value.zero, decide_eq_true_eq] at h
    subst h
    exact ZeroValue.int t
  | .uint t u, h => by
    simp only [Value.zero, decide_eq_true_eq] at h
    subst h
    exact ZeroValue.uint t
  | .float t bits, h => ZeroValue.float t bits ((f64Eq_zero_iff bits).1 h)
  | .complex w re im, h => by
    simp only [Value.zero, Bool.and_eq_true] at h
    exact ZeroValue.complex w re im ((f64Eq_zero_iff re).1 h.1) ((f64Eq_zero_iff im).1 h.2)
  | .array es, h => ZeroValue.array es (ZeroValue_of_zeroAll es (by simpa [Value.zero] using h))
  | .chan c, h => by
    cases c
    · exact ZeroValue.chan
    · simp [Value.zero] at h
  | .func n, h => by
    cases n
    · simp [Value.zero] at h
    · exact ZeroValue.func
  | .iface e, h => by
    cases e
    · exact ZeroValue.iface
    · simp [Value.zero] at h
  | .map e, h => by
    cases e
    · exact ZeroValue.map
    · simp [Value.zero] at h
  | .ptr e, h => by
    cases e
    · exact ZeroValue.ptr
    · simp [Value.zero] at h
  | .slice e, h => by
    cases e
    · exact ZeroValue.slice
    · simp [Value.zero] at h
  | .string s, h => by
    cases s
    · exact ZeroValue.string
    · simp [Value.zero] at h
  | .struct fs, h =>
    ZeroValue.struct fs (ZeroValue_of_zeroFields fs (by simpa [Value.zero] using h))
  | .time t loc, h => by
    obtain ⟨w, x⟩ := t
    simp only [Value.zero, Bool.and_eq_true, decide_eq_true_eq, Option.isNone_iff_eq_none] at h
    obtain ⟨⟨hw, hx⟩, hl⟩ := h
    subst hw hx hl
    exact ZeroValue.time
  | .unsafePointer n, h => by
    cases n
    · simp [Value.zero] at h
    · exact ZeroValue.unsafePointer
  | .embedStruct fs ps, h =>
    ZeroValue.embedStruct fs ps (ZeroValue_of_zeroFields fs (by simpa [Value.zero] using h))
/-- Elementwise form of `ZeroValue_of_zero` for arrays. -/
theorem ZeroValue_of_zeroAll : (es : List Value) → Value.zeroAll es = true →
    ∀ e ∈ es, ZeroValue e
  | [], _ => by
    intro e he
    cases he
  | v :: vs, h => by
    simp only [Value.zeroAll, Bool.and_eq_true] at h
    intro e he
    rcases List.mem_cons.1 he with e1 | e1
    · rw [e1]
      exact ZeroValue_of_zero v h.1
    · exact ZeroValue_of_zeroAll vs h.2 e e1
/-- Fieldwise form of `ZeroValue_of_zero` for structs. -/
theorem ZeroValue_of_zeroFields : (fs : List (GoString × Value)) →
    Value.zeroFields fs = true → ∀ p ∈ fs, p.1 ≠ str "_" → ZeroValue p.2
  | [], _ => by
    intro p hp _
    cases hp
  | (n, v) :: rest, h => by
    simp only [Value.zeroFields, Bool.and_eq_true, Bool.or_eq_true, decide_eq_true_eq] at h
    intro p hp hne
    rcases List.mem_cons.1 hp with e1 | e1
    · rw [e1] at hne ⊢
      rcases h.1 with hb | hz
      · exact absurd (hb.trans str_blank.symm) hne
      · exact ZeroValue_of_zero v hz
    · exact ZeroValue_of_zeroFields rest h.2 p e1 hne
end

/-- The zero test embedded from `reflect` decides the language's zero value. -/
theorem zero_iff_ZeroValue (v : Value) : v.zero = true ↔ ZeroValue v :=
  ⟨ZeroValue_of_zero v, zero_of_ZeroValue v⟩

/-- The classification made by the switch of `isPropertyNotEmpty` is the
spec's presence rule. -/
theorem presentByKind_iff (v : Value) : presentByKind v = true ↔ Present v := by
  have hz : (!v.zero) = true ↔ ¬ ZeroValue v := by
    rw [← zero_iff_ZeroValue]
    cases v.zero <;> simp
  cases v with
  | slice e => cases e <;> simp [presentByKind, Present]
  | map e => cases e <;> simp [presentByKind, Present]
  | ptr e => cases e <;> simp [presentByKind, Present]
  | iface e => cases e <;> simp [presentByKind, Present]
  | chan c => cases c <;> simp [presentByKind, Present]
  | func n => cases n <;> simp [presentByKind, Present]
  | _ => exact hz

/-! ## Claims C11 and C12: order and null collections -/

/-- C11: for every integer kind, signed or unsigned (a duration included), and
every literal, `isLessOrEqual` is antitonic in the value: if it is true for
`v'` it is true for every `v ≤ v'` of the same kind. -/
theorem C11_isLessOrEqual_antitone (lib : Lib) (s : GoString) :
    (∀ (t : UintType) (v v' : Nat), v ≤ v' →
        isLessOrEqual lib (.uint t v') s = true → isLessOrEqual lib (.uint t v) s = true) ∧
      (∀ (t : IntType) (v v' : Int), v ≤ v' →
        isLessOrEqual lib (.int t v') s = true → isLessOrEqual lib (.int t v) s = true) := by
  constructor
  · intro t v v' hv h
    rw [isLessOrEqual_uint] at h ⊢
    cases hd : decimalUint64 s with
    | none => rw [hd] at h; cases h
    | some m =>
      rw [hd] at h
      simp only [decide_eq_true_eq] at h ⊢
      omega
  · intro t v v' hv h
    by_cases ht : t = IntType.duration
    · subst ht
      rw [isLessOrEqual_duration] at h ⊢
      cases hp : lib.ParseDuration s with
      | some m =>
        rw [hp] at h
        simp only [decide_eq_true_eq] at h ⊢
        omega
      | none =>
        rw [hp] at h
        simp only at h ⊢
        cases hd : decimalInt64 s with
        | none => rw [hd] at h; cases h
        | some m =>
          rw [hd] at h
          simp only [decide_eq_true_eq] at h ⊢
          omega
    · rw [isLessOrEqual_int lib t _ s ht] at h ⊢
      cases hd : decimalInt64 s with
      | none => rw [hd] at h; cases h
      | some m =>
        rw [hd] at h
        simp only [decide_eq_true_eq] at h ⊢
        omega

/-- C11 witness: uint64 10 passes against "10", hence so does uint64 9; int 10
passes against "10", hence so does int -3. -/
theorem C11_witness :
    isLessOrEqual sampleLib (.uint .uint64 9) (str "10") = true ∧
      isLessOrEqual sampleLib (.int .int (-3)) (str "10") = true :=
  ⟨(C11_isLessOrEqual_antitone sampleLib (str "10")).1 .uint64 9 10 (by decide) (by decide),
    (C11_isLessOrEqual_antitone sampleLib (str "10")).2 .int (-3) 10 (by decide) (by decide)⟩

/-- C12: a null sequence or mapping passes `isLessOrEqual` against every
literal that parses as a signed 64-bit integer `m ≥ 0` (it counts as length
0), while `isPropertyNotEmpty` on a struct whose field holds it, with the path
of that field, is false. -/
theorem C12_null_collection (lib : Lib) (c : Value) (s : GoString) (m : Int)
    (fs : List (GoString × Value)) (name : GoString)
    (hc : c = Value.slice none ∨ c = Value.map none)
    (hs : decimalInt64 s = some m) (hm : 0 ≤ m)
    (hf : Value.lookupField name fs = some c) :
    isLessOrEqual lib c s = true ∧ isPropertyNotEmpty (.struct fs) [name] = some false := by
  constructor
  · rcases hc with e | e <;> subst e
    · rw [isLessOrEqual_collection lib (.slice none) s (Or.inl rfl), hs]
      simpa [Value.Len] using hm
    · rw [isLessOrEqual_collection lib (.map none) s (Or.inr (Or.inl rfl)), hs]
      simpa [Value.Len] using hm
  · rw [isPropertyNotEmpty_cons, fieldOf_struct, hf]
    rcases hc with e | e <;> subst e <;> rfl

/-- C12 witness: the struct with `Prop = nil` and path `Prop` is false, and the
nil slice passes against "0". -/
theorem C12_witness :
    isLessOrEqual sampleLib (.slice none) (str "0") = true ∧
      isPropertyNotEmpty (.struct [(str "Prop", .slice none)]) [str "Prop"] = some false :=
  C12_null_collection sampleLib (.slice none) (str "0") 0 [(str "Prop", .slice none)]
    (str "Prop") (Or.inl rfl) (by decide) (by decide) rfl

/-! ## Claims C13 to C18: the dependency resolver `isPropertyNotEmpty` -/

/-- C13: when the segments of `pre` name existing non-zero fields from the root
on, and the next segment names an existing field that holds the zero value of
its type, `isPropertyNotEmpty` returns false without faulting, whatever the
later segments `rest` are (they are never looked up). -/
theorem C13_zero_intermediate (root v z : Value) (pre rest : List GoString)
    (name : GoString) (hpre : descend root pre = some v)
    (hname : fieldOf v name = some z) (hz : z.IsZero = some true) :
    isPropertyNotEmpty root (pre ++ name :: rest) = some false := by
  rw [isPropertyNotEmpty_descend root v pre _ hpre, isPropertyNotEmpty_cons, hname]
  simp only [hz]

/-- C13 witness: in path `A.B.C` with `A` non-zero and `A.B` a zero-valued
struct, the result is false, also when the last segment names no field. -/
theorem C13_witness :
    isPropertyNotEmpty
        (.struct [(str "A", .struct [(str "X", .int .int 1),
          (str "B", .struct [(str "C", .string [])])])])
        [str "A", str "B", str "C"] = some false ∧
      isPropertyNotEmpty
        (.struct [(str "A", .struct [(str "X", .int .int 1),
          (str "B", .struct [(str "C", .string [])])])])
        [str "A", str "B", str "Nope"] = some false :=
  ⟨C13_zero_intermediate _ (.struct [(str "X", .int .int 1),
      (str "B", .struct [(str "C", .string [])])]) (.struct [(str "C", .string [])])
      [str "A"] [str "C"] (str "B") rfl rfl (by decide),
    C13_zero_intermediate _ (.struct [(str "X", .int .int 1),
      (str "B", .struct [(str "C", .string [])])]) (.struct [(str "C", .string [])])
      [str "A"] [str "Nope"] (str "B") rfl rfl (by decide)⟩

/-- C14, as stated, fails: the root has the field `Prop` and the path names
`prop`, which is no field of it; `isPropertyNotEmpty` does not return false, it
panics (`FieldByName` returns the zero Value and `IsZero` panics on it). -/
theorem C14_counterexample :
    Value.lookupField (str "prop") [(str "Prop", Value.string (str "abc"))] = none ∧
      isPropertyNotEmpty (.struct [(str "Prop", .string (str "abc"))]) [str "prop"] = none := by
  refine ⟨rfl, by decide⟩

/-- C14 (amended): for a struct root and a non-empty path whose first segment
names no field of the root, neither a field of the struct itself nor one
promoted from an embedded struct, `isPropertyNotEmpty` returns no boolean: the
call ends in a run-time panic, whatever the later segments are. -/
theorem C14_nonexistent_field_panics (root : Value) (name : GoString)
    (rest : List GoString) (h : namesNoField root name = true) :
    isPropertyNotEmpty root (name :: rest) = none := by
  unfold namesNoField at h
  have hu : unwrapped root = root := by
    cases root with
    | ptr e => simp [Value.fields] at h
    | _ => rfl
  rw [isPropertyNotEmpty_cons]
  unfold fieldOf
  rw [hu]
  cases hf : root.fields with
  | none => rfl
  | some fs =>
    rw [hf] at h
    simp only [Bool.and_eq_true, Option.isNone_iff_eq_none] at h
    simp only [h.1, h.2]

/-- C14 witness: the path `Nope` panics on a struct with the single field
`Prop`, and on a struct that embeds a struct with the field `Prop`; on the
latter the promoted path `Prop` is found and present. -/
theorem C14_witness :
    isPropertyNotEmpty (.struct [(str "Prop", .string (str "abc"))]) [str "Nope"] = none ∧
      isPropertyNotEmpty
        (.embedStruct [(str "EmbInner", .struct [(str "Prop", .string (str "abc"))])]
          [(str "Prop", some (.string (str "abc")))]) [str "Nope"] = none ∧
      isPropertyNotEmpty
        (.embedStruct [(str "EmbInner", .struct [(str "Prop", .string (str "abc"))])]
          [(str "Prop", some (.string (str "abc")))]) [str "Prop"] = some true :=
  ⟨C14_nonexistent_field_panics (.struct [(str "Prop", .string (str "abc"))]) (str "Nope") []
      (by decide),
    C14_nonexistent_field_panics
      (.embedStruct [(str "EmbInner", .struct [(str "Prop", .string (str "abc"))])]
        [(str "Prop", some (.string (str "abc")))]) (str "Nope") [] (by decide),
    by decide⟩

/-- C15, as stated, fails: on a nil pointer root with the path `Prop`,
`isPropertyNotEmpty` does not return false, it panics (`Elem` gives the zero
Value and `FieldByName` panics on it). -/
theorem C15_counterexample :
    (Value.ptr none).IsNil = some true ∧
      isPropertyNotEmpty (.ptr none) [str "Prop"] = none := by
  refine ⟨by decide, by decide⟩

/-- C15 (amended): for a nil pointer root and every non-empty path,
`isPropertyNotEmpty` returns no boolean: the call ends in a run-time panic. -/
theorem C15_nil_root_panics (name : GoString) (rest : List GoString) :
    isPropertyNotEmpty (.ptr none) (name :: rest) = none := by
  rw [isPropertyNotEmpty_cons]
  rfl

/-- C16: for a field `c` that is a sequence or a mapping, reached from the root
through the non-zero fields named by `pre` (none for a field of the root
itself), `isPropertyNotEmpty` returns true exactly when `c` is non-null and has
length > 0, and returns false otherwise. -/
theorem C16_collection_field (root v c : Value) (pre : List GoString) (name : GoString)
    (hpre : descend root pre = some v) (hname : fieldOf v name = some c)
    (hk : c.Kind = Kind.Slice ∨ c.Kind = Kind.Map) :
    isPropertyNotEmpty root (pre ++ [name]) =
      some (decide (c.IsNil = some false ∧ 0 < elementCount c)) := by
  rw [isPropertyNotEmpty_descend root v pre _ hpre]
  cases c with
  | slice e =>
    rw [isPropertyNotEmpty_field v _ name hname (by simp) (by simp [unwrapped])]
    cases e <;> simp [Value.zero, unwrapped, presentByKind, Value.IsNil, elementCount]
  | map e =>
    rw [isPropertyNotEmpty_field v _ name hname (by simp) (by simp [unwrapped])]
    cases e <;> simp [Value.zero, unwrapped, presentByKind, Value.IsNil, elementCount]
  | int t i => cases t <;> simp [Value.Kind] at hk
  | uint t u => cases t <;> simp [Value.Kind] at hk
  | float t b => cases t <;> simp [Value.Kind] at hk
  | complex w r i => cases w <;> simp [Value.Kind] at hk
  | _ => simp [Value.Kind] at hk

/-- C16 witness: `Prop = ["abc"]` is true, `Prop = []` and `Prop = nil` are
false; `NestedProp.Prop = ["abc"]` is true, `NestedProp.Prop = []` is false. -/
theorem C16_witness :
    isPropertyNotEmpty (.struct [(str "Prop", .slice (some [.string (str "abc")]))])
        [str "Prop"] = some true ∧
      isPropertyNotEmpty (.struct [(str "Prop", .slice (some []))]) [str "Prop"] = some false ∧
      isPropertyNotEmpty (.struct [(str "Prop", .slice none)]) [str "Prop"] = some false ∧
      isPropertyNotEmpty
        (.struct [(str "NestedProp", .struct [(str "Prop", .slice (some [.string (str "abc")]))])])
        [str "NestedProp", str "Prop"] = some true ∧
      isPropertyNotEmpty (.struct [(str "NestedProp", .struct [(str "Prop", .slice (some []))])])
        [str "NestedProp", str "Prop"] = some false :=
  ⟨C16_collection_field _ _ (.slice (some [.string (str "abc")])) [] (str "Prop") rfl rfl
      (Or.inl rfl),
    C16_collection_field _ _ (.slice (some [])) [] (str "Prop") rfl rfl (Or.inl rfl),
    C16_collection_field _ _ (.slice none) [] (str "Prop") rfl rfl (Or.inl rfl),
    C16_collection_field _ (.struct [(str "Prop", .slice (some [.string (str "abc")]))])
      (.slice (some [.string (str "abc")])) [str "NestedProp"] (str "Prop") rfl rfl
      (Or.inl rfl),
    C16_collection_field _ (.struct [(str "Prop", .slice (some []))])
      (.slice (some [])) [str "NestedProp"] (str "Prop") rfl rfl (Or.inl rfl)⟩

/-- C17, as stated, fails: the field `Prop` is a non-null pointer to the empty
string, yet `isPropertyNotEmpty` returns false: the pointer is unwrapped when
the path is exhausted and the empty string it holds is classified. -/
theorem C17_counterexample :
    (Value.ptr (some (Value.string []))).IsNil = some false ∧
      isPropertyNotEmpty (.struct [(str "Prop", .ptr (some (.string [])))]) [str "Prop"] =
        some false := by
  refine ⟨rfl, by decide⟩

/-- C17 (amended): for a root with a pointer field, `isPropertyNotEmpty` on
the path of that field returns true exactly when the pointer is non-null and
the value it holds is present by the presence rule of that value's own kind,
and returns false in every other case. -/
theorem C17_pointer_field (root : Value) (name : GoString) (e : Option Value)
    (hf : fieldOf root name = some (.ptr e)) (he : e ≠ some Value.invalid) :
    (isPropertyNotEmpty root [name] = some true ↔ ∃ held, e = some held ∧ Present held) ∧
      (isPropertyNotEmpty root [name] = some false ↔
        ¬ ∃ held, e = some held ∧ Present held) := by
  have hres : isPropertyNotEmpty root [name] =
      some (!(Value.ptr e).zero && presentByKind (unwrapped (.ptr e))) := by
    apply isPropertyNotEmpty_field root (.ptr e) name hf (by simp)
    intro hz
    cases e with
    | none => simp [Value.zero] at hz
    | some held =>
      intro hh
      apply he
      simp only [unwrapped, Option.getD_some] at hh
      rw [hh]
  rw [hres]
  cases e with
  | none => simp [Value.zero]
  | some held =>
    have hp := presentByKind_iff held
    simp only [Value.zero, unwrapped, Option.getD_some, Option.isNone_some, Bool.not_false,
      Bool.true_and, Option.some.injEq, exists_eq_left']
    cases hb : presentByKind held with
    | true =>
      rw [hb] at hp
      simp [hp.1 rfl]
    | false =>
      rw [hb] at hp
      have hn : ¬ Present held := fun h => by simpa using hp.2 h
      simp [hn]

/-- C17 witness: `Prop = nil` is false, `Prop` pointing to "abc" is true,
`Prop` pointing to the float -0.0 is false. -/
theorem C17_witness :
    isPropertyNotEmpty (.struct [(str "Prop", .ptr none)]) [str "Prop"] = some false ∧
      isPropertyNotEmpty (.struct [(str "Prop", .ptr (some (.string (str "abc"))))])
        [str "Prop"] = some true ∧
      isPropertyNotEmpty (.struct [(str "Prop", .ptr (some (.float .float64 (2 ^ 63))))])
        [str "Prop"] = some false :=
  ⟨(C17_pointer_field (.struct [(str "Prop", .ptr none)]) (str "Prop") none rfl
      (by simp)).2.2 (by simp),
    (C17_pointer_field (.struct [(str "Prop", .ptr (some (.string (str "abc"))))]) (str "Prop")
      (some (.string (str "abc"))) rfl (by simp)).1.2
      ⟨_, rfl, (presentByKind_iff (.string (str "abc"))).1 (by decide)⟩,
    by decide⟩

/-- C18: for a root with a field whose kind is neither sequence, mapping,
pointer, interface, channel nor function, `isPropertyNotEmpty` on the path of
that field returns true exactly when the field is not the zero value of its
type, and false exactly when it is. -/
theorem C18_plain_field (root f : Value) (name : GoString)
    (hf : fieldOf root name = some f) (hvalid : f.Kind ≠ Kind.Invalid)
    (hk : f.Kind ≠ Kind.Slice ∧ f.Kind ≠ Kind.Map ∧ f.Kind ≠ Kind.Pointer ∧
      f.Kind ≠ Kind.Interface ∧ f.Kind ≠ Kind.Chan ∧ f.Kind ≠ Kind.Func) :
    (isPropertyNotEmpty root [name] = some true ↔ ¬ ZeroValue f) ∧
      (isPropertyNotEmpty root [name] = some false ↔ ZeroValue f) := by
  have hv : f ≠ Value.invalid := by
    intro e
    rw [e] at hvalid
    exact hvalid rfl
  have hu : unwrapped f = f := by
    cases f with
    | ptr e => exact absurd rfl hk.2.2.1
    | _ => rfl
  have hp : presentByKind f = !f.zero := by
    cases f with
    | slice e => exact absurd rfl hk.1
    | map e => exact absurd rfl hk.2.1
    | ptr e => exact absurd rfl hk.2.2.1
    | iface e => exact absurd rfl hk.2.2.2.1
    | chan c => exact absurd rfl hk.2.2.2.2.1
    | func n => exact absurd rfl hk.2.2.2.2.2
    | _ => rfl
  rw [isPropertyNotEmpty_field root f name hf hv (by rw [hu]; exact fun _ => hv), hu, hp,
    Bool.and_self, ← zero_iff_ZeroValue]
  cases f.zero <;> simp

/-- C18 witness: `Prop = "abc"` is true, `Prop = ""` is false; a zero timestamp,
a fixed array of zeros and the float -0.0 are false. -/
theorem C18_witness :
    isPropertyNotEmpty (.struct [(str "Prop", .string (str "abc"))]) [str "Prop"] = some true ∧
      isPropertyNotEmpty (.struct [(str "Prop", .string (str ""))]) [str "Prop"] = some false ∧
      isPropertyNotEmpty (.struct [(str "Prop", .time ⟨0, 0⟩ none)]) [str "Prop"] = some false ∧
      isPropertyNotEmpty (.struct [(str "Prop", .array [.int .int 0, .int .int 0])])
        [str "Prop"] = some false ∧
      isPropertyNotEmpty (.struct [(str "Prop", .float .float64 (2 ^ 63))]) [str "Prop"] =
        some false :=
  ⟨(C18_plain_field (.struct [(str "Prop", .string (str "abc"))]) (.string (str "abc"))
      (str "Prop") rfl (by decide) (by decide)).1.2
      (fun h => absurd (zero_of_ZeroValue _ h) (by decide)),
    (C18_plain_field (.struct [(str "Prop", .string (str ""))]) (.string (str ""))
      (str "Prop") rfl (by decide) (by decide)).2.2 ZeroValue.string,
    (C18_plain_field (.struct [(str "Prop", .time ⟨0, 0⟩ none)]) (.time ⟨0, 0⟩ none)
      (str "Prop") rfl (by decide) (by decide)).2.2 ZeroValue.time,
    (C18_plain_field (.struct [(str "Prop", .array [.int .int 0, .int .int 0])])
      (.array [.int .int 0, .int .int 0]) (str "Prop") rfl (by decide) (by decide)).2.2
      (ZeroValue_of_zero _ (by decide)),
    (C18_plain_field (.struct [(str "Prop", .float .float64 (2 ^ 63))])
      (.float .float64 (2 ^ 63)) (str "Prop") rfl (by decide) (by decide)).2.2
      (ZeroValue.float _ _ (by decide))⟩

/-! ## Claims C19 and C20 -/

/-- C19: for every rule parameter string, splitting on spaces yields at least
one token, the index of the last token is in range and selects the threshold
literal, so `maxWithout` panics only when a dependency lookup does; for the
empty parameter string the dependency list is empty and the threshold literal
is the empty string. -/
theorem C19_split_in_range (lib : Lib) (field parent : Value) (param : GoString) :
    1 ≤ (Split param 32).length ∧
      (Split param 32)[(Split param 32).length - 1]? = some (thresholdToken param) ∧
      (Split param 32).take ((Split param 32).length - 1) = dependencyTokens param ∧
      (maxWithout lib field parent param = none ↔
        anyDependencyNotEmpty parent (dependencyTokens param) = none) ∧
      dependencyTokens [] = [] ∧ thresholdToken [] = [] := by
  have hne := Split_ne_nil param 32
  refine ⟨?_, ?_, ?_, ?_, rfl, rfl⟩
  · cases h : Split param 32 with
    | nil => exact absurd h hne
    | cons a l => simp
  · rw [← List.getLast?_eq_getElem?]
    unfold thresholdToken
    cases h : Split param 32 with
    | nil => exact absurd h hne
    | cons a l => simp [List.getLast?_cons]
  · unfold dependencyTokens
    rw [List.dropLast_eq_take]
  · rw [maxWithout_eq]
    cases anyDependencyNotEmpty parent (dependencyTokens param) with
    | none => simp
    | some b => cases b <;> simp

/-- C19 witness: a parameter with leading, consecutive and trailing spaces
splits into five tokens, the first and the last of them empty. -/
theorem C19_witness :
    1 ≤ (Split (str " a  b ") 32).length ∧
      Split (str " a  b ") 32 = [[], str "a", [], str "b", []] :=
  ⟨(C19_split_in_range sampleLib (.uint .uint64 20) (testData [] none) (str " a  b ")).1,
    by decide⟩

/-- C20: a literal that is a well-formed decimal integer greater than
`2 ^ 63 - 1` makes `isLessOrEqual` false for every signed integer (for a
duration: when the duration parser rejects the literal too), string and
collection value, and one greater than `2 ^ 64 - 1` makes it false for every
unsigned value, although every value within the 64-bit range of its kind is
at most the number the literal denotes. -/
theorem C20_literal_out_of_range (lib : Lib) (s : GoString) (n : Int)
    (hs : decimalInteger s = some n) :
    (2 ^ 63 - 1 < n →
        (∀ (t : IntType) (v : Int), (t ≠ IntType.duration ∨ lib.ParseDuration s = none) →
          isLessOrEqual lib (.int t v) s = false ∧ (v ≤ 2 ^ 63 - 1 → v ≤ n)) ∧
        (∀ b : GoString, isLessOrEqual lib (.string b) s = false ∧
          ((RuneCountInString b : Int) ≤ 2 ^ 63 - 1 → (RuneCountInString b : Int) ≤ n)) ∧
        (∀ c : Value, c.Kind = Kind.Slice ∨ c.Kind = Kind.Map ∨ c.Kind = Kind.Array →
          isLessOrEqual lib c s = false ∧
            ((elementCount c : Int) ≤ 2 ^ 63 - 1 → (elementCount c : Int) ≤ n))) ∧
      (2 ^ 64 - 1 < n →
        ∀ (t : UintType) (v : Nat), isLessOrEqual lib (.uint t v) s = false ∧
          ((v : Int) ≤ 2 ^ 64 - 1 → (v : Int) ≤ n)) := by
  constructor
  · intro hn
    have hd := decimalInt64_of_large s n hs hn
    refine ⟨fun t v ht => ⟨?_, fun hv => by omega⟩, fun b => ⟨?_, fun hv => by omega⟩,
      fun c hk => ⟨?_, fun hv => by omega⟩⟩
    · by_cases hdur : t = IntType.duration
      · subst hdur
        rcases ht with ht | ht
        · exact absurd rfl ht
        · rw [isLessOrEqual_duration, ht, hd]
      · rw [isLessOrEqual_int lib t v s hdur, hd]
    · rw [isLessOrEqual_string, hd]
    · rw [isLessOrEqual_collection lib c s hk, hd]
  · intro hn t v
    refine ⟨?_, fun hv => by omega⟩
    rw [isLessOrEqual_uint, decimalUint64_of_large s n hs hn]

/-- C20 witness: against "9223372036854775808" (2^63) the greatest int64 fails,
as do a string and an empty slice; against "18446744073709551616" (2^64) the
greatest uint64 fails. -/
theorem C20_witness :
    isLessOrEqual sampleLib (.int .int64 9223372036854775807) (str "9223372036854775808") =
        false ∧
      isLessOrEqual sampleLib (.string (str "a")) (str "9223372036854775808") = false ∧
      isLessOrEqual sampleLib (.slice (some [])) (str "9223372036854775808") = false ∧
      isLessOrEqual sampleLib (.uint .uint64 18446744073709551615)
        (str "18446744073709551616") = false :=
  ⟨(((C20_literal_out_of_range sampleLib (str "9223372036854775808") 9223372036854775808
      (by decide)).1 (by decide)).1 .int64 9223372036854775807 (Or.inl (by decide))).1,
    (((C20_literal_out_of_range sampleLib (str "9223372036854775808") 9223372036854775808
      (by decide)).1 (by decide)).2.1 (str "a")).1,
    (((C20_literal_out_of_range sampleLib (str "9223372036854775808") 9223372036854775808
      (by decide)).1 (by decide)).2.2 (.slice (some [])) (Or.inl rfl)).1,
    ((C20_literal_out_of_range sampleLib (str "18446744073709551616") 18446744073709551616
      (by decide)).2 (by decide) .uint64 18446744073709551615).1⟩

/-! ## The repository's tests, evaluated on the embedding -/

/-- The cases of `Test_isLessOrEqual` that do not depend on the current time. -/
theorem test_isLessOrEqual :
    isLessOrEqual sampleLib (.uint .uint64 9) (str "10") = true ∧
      isLessOrEqual sampleLib (.int .int 10) (str "10") = true ∧
      isLessOrEqual sampleLib (.int .int 11) (str "10") = false ∧
      isLessOrEqual sampleLib (.string (str "a")) (str "2") = true ∧
      isLessOrEqual sampleLib (.string (str "ab")) (str "2") = true ∧
      isLessOrEqual sampleLib (.string (str "abc")) (str "2") = false ∧
      isLessOrEqual sampleLib (.slice (some [.int .int64 1])) (str "2") = true ∧
      isLessOrEqual sampleLib (.slice (some [.int .int64 1, .int .int64 2])) (str "2") = true ∧
      isLessOrEqual sampleLib (.slice (some [.int .int64 1, .int .int64 2, .int .int64 3]))
        (str "2") = false ∧
      isLessOrEqual sampleLib (.slice (some [])) (str "2") = true := by
  decide

/-- The cases of `Test_isPropertyNotEmpty`. -/
theorem test_isPropertyNotEmpty :
    isPropertyNotEmpty (.struct [(str "Prop", .string (str "abc"))]) [str "Prop"] = some true ∧
      isPropertyNotEmpty (.struct [(str "Prop", .string (str ""))]) [str "Prop"] = some false ∧
      isPropertyNotEmpty (.struct [(str "Prop", .ptr none)]) [str "Prop"] = some false ∧
      isPropertyNotEmpty (.struct [(str "Prop", .ptr (some (.string (str "abc"))))])
        [str "Prop"] = some true ∧
      isPropertyNotEmpty (.struct [(str "Prop", .slice (some [.string (str "abc")]))])
        [str "Prop"] = some true ∧
      isPropertyNotEmpty (.struct [(str "Prop", .slice (some []))]) [str "Prop"] = some false ∧
      isPropertyNotEmpty (.struct [(str "Prop", .slice none)]) [str "Prop"] = some false ∧
      isPropertyNotEmpty
        (.struct [(str "NestedProp", .struct [(str "Prop", .slice (some [.string (str "abc")]))])])
        [str "NestedProp", str "Prop"] = some true ∧
      isPropertyNotEmpty (.struct [(str "NestedProp", .struct [(str "Prop", .slice (some []))])])
        [str "NestedProp", str "Prop"] = some false ∧
      isPropertyNotEmpty (.struct [(str "NestedProp", .struct [(str "Prop", .slice none)])])
        [str "NestedProp", str "Prop"] = some false := by
  decide

/-- The cases of `Test_Validate` (an error is expected exactly when the rule
returns false). -/
theorem test_Validate :
    maxWithout sampleLib (.uint .uint64 20) (testData (str "a") none)
        (str "Filters.StringF 10") = some true ∧
      maxWithout sampleLib (.uint .uint64 20) (testData (str "") none)
        (str "Filters.StringF 10") = some false ∧
      maxWithout sampleLib (.uint .uint64 20) (testData (str "") (some [.string (str "abc")]))
        (str "Filters.NestedFilters.SliceF 10") = some true ∧
      maxWithout sampleLib (.uint .uint64 20) (testData (str "") (some []))
        (str "Filters.NestedFilters.SliceF 10") = some false := by
  decide

end Appvalidator
